import Mathlib

/-!
Verification of the `polygon-background` particle simulation (Rust, wasm).

Shallow embedding conventions:
* `f32` values are modelled as exact rationals (`ℚ`); arithmetic on them is
  the ideal field arithmetic denoted by the source expressions.
* `u32` values are modelled as `ℕ` together with explicit `% 2^32` wherever
  the machine word wraps.
* `usize` casts from floats (`as usize`) truncate toward zero and saturate
  at 0 for negative inputs; for a value `q : ℚ` this is `⌊q⌋.toNat`
  (both agree: for `q ≥ 0` truncation equals the floor, for `q < 0` the
  saturation yields 0, which is also `Int.toNat` of the negative floor).
* `f32::sqrt` has no exact rational counterpart; functions that call it
  take an explicit parameter `sqrtQ : ℚ → ℚ` standing for the (fixed,
  deterministic) square-root routine.  Theorems that depend on its
  numerical meaning carry the hypothesis `sqrtQ d * sqrtQ d = d` at the
  arguments actually used.
* The external `delaunator` crate is likewise a fixed deterministic
  function and is modelled as an explicit parameter
  `delaunayFn : List (ℚ × ℚ) → List ℕ` returning the flattened triangle
  index list.

Source layout note: the crate contains a self-contained
`src/simulation.rs` (the `wasm_bindgen` API actually exported by
`lib.rs`, with its own inlined copies of the RNG, point physics, effect
and force-kernel code) and a parallel set of modules
(`rng.rs`, `point.rs`, `effects.rs`, `spatial_grid.rs`, `physics.rs`,
`triangulation.rs`).  Where the two copies are textually identical a
single Lean definition embeds both; where they differ (notably the
gravity-well kernel) both versions are embedded separately.
-/

namespace PolygonBackground

/-! ### constants.rs -/

/-- `GHOST_THRESHOLD: f32 = 0.15` -/
def GHOST_THRESHOLD : ℚ := 0.15

/-- `MAX_SHOCKWAVES: usize = 10` -/
def MAX_SHOCKWAVES : ℕ := 10

/-- `DEFAULT_SPRING_BACK: f32 = 0.06` -/
def DEFAULT_SPRING_BACK : ℚ := 0.06

/-- `DEFAULT_DAMPING: f32 = 0.92` -/
def DEFAULT_DAMPING : ℚ := 0.92

/-- `DEFAULT_VELOCITY_INFLUENCE: f32 = 0.3` -/
def DEFAULT_VELOCITY_INFLUENCE : ℚ := 0.3

/-- `SHOCKWAVE_DECAY: f32 = 0.96` -/
def SHOCKWAVE_DECAY : ℚ := 0.96

/-- `SHOCKWAVE_WAVE_WIDTH: f32 = 60.0` -/
def SHOCKWAVE_WAVE_WIDTH : ℚ := 60.0

/-- `SHOCKWAVE_SPEED: f32 = 12.0` -/
def SHOCKWAVE_SPEED : ℚ := 12.0

/-- `GRAVITY_WELL_MIN_DIST: f32 = 20.0` -/
def GRAVITY_WELL_MIN_DIST : ℚ := 20.0

/-- `GRAVITY_WELL_ATTRACT_STRENGTH: f32 = 3.0` -/
def GRAVITY_WELL_ATTRACT_STRENGTH : ℚ := 3.0

/-- `GRAVITY_WELL_REPEL_STRENGTH: f32 = -5.0` -/
def GRAVITY_WELL_REPEL_STRENGTH : ℚ := -5.0

/-- `GRAVITY_WELL_MAX_RANGE: f32 = 1000.0` -/
def GRAVITY_WELL_MAX_RANGE : ℚ := 1000.0

/-- `MIN_DIST_SQ: f32 = 1.0` -/
def MIN_DIST_SQ : ℚ := 1.0

/-- `BASE_VELOCITY: f32 = 0.5` -/
def BASE_VELOCITY : ℚ := 0.5

/-- `DEFAULT_NOISE_SCALE: f32 = 0.003` -/
def DEFAULT_NOISE_SCALE : ℚ := 0.003

/-- `DEFAULT_HEIGHT_INTENSITY: f32 = 0.6` -/
def DEFAULT_HEIGHT_INTENSITY : ℚ := 0.6

/-! ### rng.rs (identical private copy in simulation.rs)

`struct Rng { state: u32 }`, xorshift32. -/

/-- The `u32` modulus. -/
def U32_MOD : ℕ := 2 ^ 32

/-- `u32::MAX` as a rational (the divisor in `next_f32`). -/
def U32_MAX_Q : ℚ := (2 ^ 32 : ℚ) - 1

structure Rng where
  state : ℕ
  deriving Repr, DecidableEq

namespace Rng

/-- `Rng::new(seed)`: `state = if seed == 0 { 1 } else { seed }`. -/
def new (seed : ℕ) : Rng :=
  { state := if seed = 0 then 1 else seed }

/-- One xorshift32 step on the raw word:
`x ^= x << 13; x ^= x >> 17; x ^= x << 5`.
Left shifts wrap modulo `2^32` (u32 arithmetic). -/
def step (x : ℕ) : ℕ :=
  let x1 := x ^^^ ((x <<< 13) % U32_MOD)
  let x2 := x1 ^^^ (x1 >>> 17)
  let x3 := x2 ^^^ ((x2 <<< 5) % U32_MOD)
  x3

/-- `Rng::next`: returns the new word and the advanced generator. -/
def next (r : Rng) : ℕ × Rng :=
  let x := step r.state
  (x, { state := x })

/-- `Rng::next_f32`: `(self.next() as f32) / (u32::MAX as f32)`,
idealized to exact division. -/
def next_f32 (r : Rng) : ℚ × Rng :=
  let (x, r') := r.next
  ((x : ℚ) / U32_MAX_Q, r')

/-- Generator state after `n` draws from a given seed. -/
def afterDraws (seed : ℕ) (n : ℕ) : Rng :=
  Nat.iterate (fun r => r.next.2) n (Rng.new seed)

/-- The value produced by the `n`-th call (0-based) of `next_f32` on a
fresh generator with the given seed. -/
def streamVal (seed : ℕ) (n : ℕ) : ℚ :=
  ((afterDraws seed n).next_f32).1

end Rng

/-! ### point.rs (Point is identical to the private copy in simulation.rs) -/

structure Point where
  x : ℚ
  y : ℚ
  z : ℚ
  base_x : ℚ
  base_y : ℚ
  vx : ℚ
  vy : ℚ
  dx : ℚ
  dy : ℚ
  deriving Repr, DecidableEq

instance : Inhabited Point :=
  ⟨⟨0, 0, 0, 0, 0, 0, 0, 0, 0⟩⟩

namespace Point

/-- `Point::update_position`: drift the base position and wrap each axis
independently (one addition or subtraction of the dimension per axis). -/
def update_position (p : Point) (delta_time speed width height : ℚ) : Point :=
  let bx0 := p.base_x + p.vx * speed * delta_time
  let by0 := p.base_y + p.vy * speed * delta_time
  let bx1 := if bx0 < 0 then bx0 + width else bx0
  let bx2 := if bx1 > width then bx1 - width else bx1
  let by1 := if by0 < 0 then by0 + height else by0
  let by2 := if by1 > height then by1 - height else by1
  { p with base_x := bx2, base_y := by2 }

/-- `Point::apply_spring`: accumulate the spring pull into the
displacement velocity, damp it, then recompute the position from
base + displacement. -/
def apply_spring (p : Point) (spring_back damping : ℚ) : Point :=
  let dx1 := p.dx + (0 - (p.x - p.base_x)) * spring_back
  let dy1 := p.dy + (0 - (p.y - p.base_y)) * spring_back
  let dx2 := dx1 * damping
  let dy2 := dy1 * damping
  { p with
      dx := dx2
      dy := dy2
      x := p.base_x + dx2
      y := p.base_y + dy2 }

/-- `Point::scale`: rescale positions (not velocities) on canvas resize. -/
def scale (p : Point) (scale_x scale_y : ℚ) : Point :=
  { p with
      x := p.x * scale_x
      y := p.y * scale_y
      base_x := p.base_x * scale_x
      base_y := p.base_y * scale_y }

end Point

/-! ### effects.rs -/

structure Shockwave where
  x : ℚ
  y : ℚ
  radius : ℚ
  strength : ℚ
  speed : ℚ
  deriving Repr, DecidableEq

namespace Shockwave

/-- `Shockwave::new`: radius 0, strength clamped to `[0, 500]`,
fixed speed `SHOCKWAVE_SPEED`. -/
def new (x y strength : ℚ) : Shockwave :=
  { x := x
    y := y
    radius := 0
    strength := min (max strength 0) 500
    speed := SHOCKWAVE_SPEED }

/-- `Shockwave::update`: `radius += speed; strength *= SHOCKWAVE_DECAY`. -/
def update (w : Shockwave) : Shockwave :=
  { w with radius := w.radius + w.speed, strength := w.strength * SHOCKWAVE_DECAY }

/-- `Shockwave::is_active`: `strength > 0.5`. -/
def is_active (w : Shockwave) : Bool :=
  0.5 < w.strength

end Shockwave

/-- One frame of shockwave lifecycle on a wave list: update every wave,
then drop the inactive ones.  This is the body shared verbatim by
`ShockwaveManager::update` (effects.rs) and
`Simulation::update_shockwaves` (simulation.rs). -/
def shockwavesFrame (waves : List Shockwave) : List Shockwave :=
  (waves.map Shockwave.update).filter Shockwave.is_active

structure ShockwaveManager where
  waves : List Shockwave
  deriving Repr, DecidableEq

namespace ShockwaveManager

def new : ShockwaveManager := { waves := [] }

/-- `ShockwaveManager::add`: if at capacity (`len >= MAX_SHOCKWAVES`)
remove the oldest (index 0), then push the new wave at the back. -/
def add (m : ShockwaveManager) (x y strength : ℚ) : ShockwaveManager :=
  let waves := if MAX_SHOCKWAVES ≤ m.waves.length then m.waves.drop 1 else m.waves
  { waves := waves ++ [Shockwave.new x y strength] }

/-- `ShockwaveManager::update`: tick every wave, prune inactive ones. -/
def update (m : ShockwaveManager) : ShockwaveManager :=
  { waves := shockwavesFrame m.waves }

end ShockwaveManager

/-- An operation on the shockwave collection (the public surface of
`ShockwaveManager`, as exercised by `Simulation`): trigger a new wave or
run the per-frame update. -/
inductive MgrOp where
  | addWave (x y strength : ℚ)
  | frame
  deriving Repr, DecidableEq

/-- Run a sequence of operations on a manager. -/
def runMgrOps (ops : List MgrOp) (m : ShockwaveManager) : ShockwaveManager :=
  ops.foldl
    (fun m op =>
      match op with
      | .addWave x y s => m.add x y s
      | .frame => m.update)
    m

structure GravityWell where
  x : ℚ
  y : ℚ
  strength : ℚ
  deriving Repr, DecidableEq

/-- `MouseMode` (`Push | Pull | Swirl`). -/
inductive MouseMode where
  | Push
  | Pull
  | Swirl
  deriving Repr, DecidableEq

/-- `MouseMode::from_u32`: 1 ↦ Pull, 2 ↦ Swirl, anything else ↦ Push. -/
def MouseMode.from_u32 (value : ℕ) : MouseMode :=
  if value = 1 then .Pull else if value = 2 then .Swirl else .Push

/-! ### spatial_grid.rs -/

structure SpatialGrid where
  cells : List (List ℕ)
  cell_size : ℚ
  cols : ℕ
  rows : ℕ
  width : ℚ
  height : ℚ
  deriving Repr, DecidableEq

namespace SpatialGrid

/-- `SpatialGrid::new`: `cell_size` floored at 1;
`cols = ((width / cell_size).ceil() as usize).max(1)` and likewise for
rows (the `as usize` saturates negative ceilings to 0, i.e. `Int.toNat`). -/
def new (width height cell_size : ℚ) : SpatialGrid :=
  let cs := max cell_size 1
  let cols := max (⌈width / cs⌉.toNat) 1
  let rows := max (⌈height / cs⌉.toNat) 1
  { cells := List.replicate (cols * rows) []
    cell_size := cs
    cols := cols
    rows := rows
    width := width
    height := height }

/-- `SpatialGrid::cell_index`:
`col = ((x / cell_size) as usize).min(cols - 1)` (truncating, saturating
cast: `⌊x/cs⌋.toNat`), same for the row; index `row * cols + col`. -/
def cell_index (g : SpatialGrid) (x y : ℚ) : ℕ :=
  let col := min (⌊x / g.cell_size⌋.toNat) (g.cols - 1)
  let row := min (⌊y / g.cell_size⌋.toNat) (g.rows - 1)
  row * g.cols + col

/-- `SpatialGrid::insert`: push the point index onto its cell's list. -/
def insert (g : SpatialGrid) (point_index : ℕ) (x y : ℚ) : SpatialGrid :=
  let idx := g.cell_index x y
  { g with cells := g.cells.set idx (g.cells.getD idx [] ++ [point_index]) }

/-- `SpatialGrid::query_radius`: all indices stored in the cells whose
column lies in `[min_col, max_col)` and row in `[min_row, max_row)`,
where
`min_col = ((cx - r)/cs).floor().max(0.0) as usize`,
`max_col = ((cx + r)/cs).ceil().min(cols as f32) as usize`
(and likewise for rows); the casts saturate negatives to 0. -/
def query_radius (g : SpatialGrid) (cx cy radius : ℚ) : List ℕ :=
  let minCol := (⌊(cx - radius) / g.cell_size⌋).toNat
  let maxCol := (min ⌈(cx + radius) / g.cell_size⌉ (g.cols : ℤ)).toNat
  let minRow := (⌊(cy - radius) / g.cell_size⌋).toNat
  let maxRow := (min ⌈(cy + radius) / g.cell_size⌉ (g.rows : ℤ)).toNat
  (List.range' minRow (maxRow - minRow)).flatMap fun row =>
    (List.range' minCol (maxCol - minCol)).flatMap fun col =>
      g.cells.getD (row * g.cols + col) []

/-- Insert the positions `ps` with consecutive indices starting at
`start` (how `Simulation` fills the grid each frame: index `i` at the
`i`-th particle's current position). -/
def insertAll (g : SpatialGrid) (start : ℕ) (ps : List (ℚ × ℚ)) : SpatialGrid :=
  match ps with
  | [] => g
  | p :: rest => (g.insert start p.1 p.2).insertAll (start + 1) rest

end SpatialGrid

/-! ### noise.rs — 3D simplex noise and fractal Brownian motion -/

/-- The 256-entry base permutation table.  The Rust source doubles it to
512 entries with `perm[i] = base[i & 255]`; we expose the doubled table
through `permAt` below. -/
def PERM_BASE : List ℕ :=
  [151, 160, 137, 91, 90, 15, 131, 13, 201, 95, 96, 53, 194, 233, 7, 225,
   140, 36, 103, 30, 69, 142, 8, 99, 37, 240, 21, 10, 23, 190, 6, 148,
   247, 120, 234, 75, 0, 26, 197, 62, 94, 252, 219, 203, 117, 35, 11, 32,
   57, 177, 33, 88, 237, 149, 56, 87, 174, 20, 125, 136, 171, 168, 68, 175,
   74, 165, 71, 134, 139, 48, 27, 166, 77, 146, 158, 231, 83, 111, 229, 122,
   60, 211, 133, 230, 220, 105, 92, 41, 55, 46, 245, 40, 244, 102, 143, 54,
   65, 25, 63, 161, 1, 216, 80, 73, 209, 76, 132, 187, 208, 89, 18, 169,
   200, 196, 135, 130, 116, 188, 159, 86, 164, 100, 109, 198, 173, 186, 3, 64,
   52, 217, 226, 250, 124, 123, 5, 202, 38, 147, 118, 126, 255, 82, 85, 212,
   207, 206, 59, 227, 47, 16, 58, 17, 182, 189, 28, 42, 223, 183, 170, 213,
   119, 248, 152, 2, 44, 154, 163, 70, 221, 153, 101, 155, 167, 43, 172, 9,
   129, 22, 39, 253, 19, 98, 108, 110, 79, 113, 224, 232, 178, 185, 112, 104,
   218, 246, 97, 228, 251, 34, 242, 193, 238, 210, 144, 12, 191, 179, 162, 241,
   81, 51, 145, 235, 249, 14, 239, 107, 49, 192, 214, 31, 181, 199, 106, 157,
   184, 84, 204, 176, 115, 121, 50, 45, 127, 4, 150, 254, 138, 236, 205, 93,
   222, 114, 67, 29, 24, 72, 243, 141, 128, 195, 78, 66, 215, 61, 156, 180]

/-- `PERM[i]` of the doubled table (all indices the algorithm forms are
below 512, and `PERM[i] = base[i & 255] = base[i % 256]`). -/
def permAt (i : ℕ) : ℕ :=
  PERM_BASE.getD (i % 256) 0

/-- `GRAD3`: the 12 gradient vectors. -/
def GRAD3 : List (ℚ × ℚ × ℚ) :=
  [(1, 1, 0), (-1, 1, 0), (1, -1, 0), (-1, -1, 0),
   (1, 0, 1), (-1, 0, 1), (1, 0, -1), (-1, 0, -1),
   (0, 1, 1), (0, -1, 1), (0, 1, -1), (0, -1, -1)]

/-- `F3 = 1.0 / 3.0` (idealized to the exact rational). -/
def F3 : ℚ := 1 / 3

/-- `G3 = 1.0 / 6.0`. -/
def G3 : ℚ := 1 / 6

/-- `fastfloor`: `if x > 0.0 { x as i32 } else { (x as i32) - 1 }`.
The `as i32` cast truncates toward zero, which is `⌊x⌋` for `x > 0` and
`⌈x⌉` for `x ≤ 0`. -/
def fastfloor (x : ℚ) : ℤ :=
  if 0 < x then ⌊x⌋ else ⌈x⌉ - 1

/-- `dot3`. -/
def dot3 (g : ℚ × ℚ × ℚ) (x y z : ℚ) : ℚ :=
  g.1 * x + g.2.1 * y + g.2.2 * z

/-- One corner contribution of `simplex3d`:
`if t >= 0 { t² * t² * dot3(GRAD3[gi], x, y, z) } else { 0 }`. -/
def simplexCorner (t : ℚ) (gi : ℕ) (x y z : ℚ) : ℚ :=
  if 0 ≤ t then
    let t2 := t * t
    t2 * t2 * dot3 (GRAD3.getD gi (0, 0, 0)) x y z
  else 0

/-- `simplex3d`: Stefan Gustavson's 3D simplex noise. -/
def simplex3d (x y z : ℚ) : ℚ :=
  let s := (x + y + z) * F3
  let i := fastfloor (x + s)
  let j := fastfloor (y + s)
  let k := fastfloor (z + s)
  let t := ((i + j + k : ℤ) : ℚ) * G3
  let x0 := x - ((i : ℚ) - t)
  let y0 := y - ((j : ℚ) - t)
  let z0 := z - ((k : ℚ) - t)
  let c : ℕ × ℕ × ℕ × ℕ × ℕ × ℕ :=
    if y0 ≤ x0 then
      if z0 ≤ y0 then (1, 0, 0, 1, 1, 0)
      else if z0 ≤ x0 then (1, 0, 0, 1, 0, 1)
      else (0, 0, 1, 1, 0, 1)
    else
      if y0 < z0 then (0, 0, 1, 0, 1, 1)
      else if x0 < z0 then (0, 1, 0, 0, 1, 1)
      else (0, 1, 0, 1, 1, 0)
  let i1 := c.1
  let j1 := c.2.1
  let k1 := c.2.2.1
  let i2 := c.2.2.2.1
  let j2 := c.2.2.2.2.1
  let k2 := c.2.2.2.2.2
  let x1 := x0 - (i1 : ℚ) + G3
  let y1 := y0 - (j1 : ℚ) + G3
  let z1 := z0 - (k1 : ℚ) + G3
  let x2 := x0 - (i2 : ℚ) + 2 * G3
  let y2 := y0 - (j2 : ℚ) + 2 * G3
  let z2 := z0 - (k2 : ℚ) + 2 * G3
  let x3 := x0 - 1 + 3 * G3
  let y3 := y0 - 1 + 3 * G3
  let z3 := z0 - 1 + 3 * G3
  let ii := (i % 256).toNat
  let jj := (j % 256).toNat
  let kk := (k % 256).toNat
  let gi0 := permAt (ii + permAt (jj + permAt kk)) % 12
  let gi1 := permAt (ii + i1 + permAt (jj + j1 + permAt (kk + k1))) % 12
  let gi2 := permAt (ii + i2 + permAt (jj + j2 + permAt (kk + k2))) % 12
  let gi3 := permAt (ii + 1 + permAt (jj + 1 + permAt (kk + 1))) % 12
  let n0 := simplexCorner (0.6 - x0 * x0 - y0 * y0 - z0 * z0) gi0 x0 y0 z0
  let n1 := simplexCorner (0.6 - x1 * x1 - y1 * y1 - z1 * z1) gi1 x1 y1 z1
  let n2 := simplexCorner (0.6 - x2 * x2 - y2 * y2 - z2 * z2) gi2 x2 y2 z2
  let n3 := simplexCorner (0.6 - x3 * x3 - y3 * y3 - z3 * z3) gi3 x3 y3 z3
  32 * (n0 + n1 + n2 + n3)

/-- The octave loop of `fbm3d`, carrying
`(value, amplitude, frequency, max_value)`. -/
def fbm3dGo (x y z persistence lacunarity : ℚ) :
    ℕ → ℚ × ℚ × ℚ × ℚ → ℚ × ℚ × ℚ × ℚ
  | 0, acc => acc
  | n + 1, (value, amplitude, frequency, maxValue) =>
      fbm3dGo x y z persistence lacunarity n
        (value + amplitude * simplex3d (x * frequency) (y * frequency) (z * frequency),
         amplitude * persistence,
         frequency * lacunarity,
         maxValue + amplitude)

/-- `fbm3d`: fractal Brownian motion over `octaves` octaves. -/
def fbm3d (x y z : ℚ) (octaves : ℕ) (persistence lacunarity : ℚ) : ℚ :=
  let acc := fbm3dGo x y z persistence lacunarity octaves (0, 1, 1, 0)
  acc.1 / acc.2.2.2

/-! ### Point creation (point.rs, identical in simulation.rs) -/

namespace Point

/-- `Point::calculate_height` / `Simulation::calculate_static_height`:
noise sample normalized to `[0,1]`, radial center falloff, intensity. -/
def calculate_height (sqrtQ : ℚ → ℚ)
    (x y width height noise_scale intensity : ℚ) : ℚ :=
  let cx := width / 2
  let cy := height / 2
  let max_dist := sqrtQ (cx * cx + cy * cy)
  let z0 := fbm3d (x * noise_scale) (y * noise_scale) 0 4 0.5 2
  let z1 := (z0 + 1) / 2
  let dx := x - cx
  let dy := y - cy
  let dist := sqrtQ (dx * dx + dy * dy)
  let falloff := 1 - (dist / max_dist) * 0.3
  z1 * falloff * intensity

/-- `Point::new_random` (and the body of the point-creation loops in
`Simulation::new` / `Simulation::set_point_count`): draws x, y, vx, vy
in that order, height computed once from the position. -/
def new_random (sqrtQ : ℚ → ℚ) (rng : Rng)
    (width height noise_scale height_intensity : ℚ) : Point × Rng :=
  let (q1, rng1) := rng.next_f32
  let x := q1 * width
  let (q2, rng2) := rng1.next_f32
  let y := q2 * height
  let (q3, rng3) := rng2.next_f32
  let vx := (q3 - 0.5) * BASE_VELOCITY * 2
  let (q4, rng4) := rng3.next_f32
  let vy := (q4 - 0.5) * BASE_VELOCITY * 2
  let z := calculate_height sqrtQ x y width height noise_scale height_intensity
  ({ x := x, y := y, z := z, base_x := x, base_y := y,
     vx := vx, vy := vy, dx := 0, dy := 0 }, rng4)

end Point

/-! ### effects.rs `MouseState` -/

structure MouseState where
  x : ℚ
  y : ℚ
  prev_x : ℚ
  prev_y : ℚ
  vx : ℚ
  vy : ℚ
  in_canvas : Bool
  radius : ℚ
  strength : ℚ
  mode : MouseMode
  deriving Repr, DecidableEq

namespace MouseState

/-- `MouseState::new`. -/
def new : MouseState :=
  { x := 0, y := 0, prev_x := 0, prev_y := 0, vx := 0, vy := 0,
    in_canvas := false, radius := 150, strength := 80, mode := .Push }

/-- `MouseState::update` (identical to `Simulation::set_mouse_state`):
record previous position, smooth the velocity while in canvas
(0.4/0.6 blend), decay it by 0.9 otherwise, remap the mode code. -/
def update (m : MouseState) (x y : ℚ) (in_canvas : Bool)
    (radius strength : ℚ) (mode : ℕ) : MouseState :=
  let prev_x := m.x
  let prev_y := m.y
  let vx := if in_canvas then (x - prev_x) * 0.4 + m.vx * 0.6 else m.vx * 0.9
  let vy := if in_canvas then (y - prev_y) * 0.4 + m.vy * 0.6 else m.vy * 0.9
  { x := x, y := y, prev_x := prev_x, prev_y := prev_y,
    vx := vx, vy := vy, in_canvas := in_canvas,
    radius := radius, strength := strength,
    mode := MouseMode.from_u32 mode }

/-- `MouseState::speed`: `sqrt(vx² + vy²)`. -/
def speed (sqrtQ : ℚ → ℚ) (m : MouseState) : ℚ :=
  sqrtQ (m.vx * m.vx + m.vy * m.vy)

end MouseState

/-! ### Force-kernel per-point bodies

The loop bodies of `physics.rs::{apply_mouse_influence, apply_gravity_well,
apply_shockwave}` coincide with the inlined loops of
`Simulation::{apply_mouse_influence, apply_gravity_well,
apply_shockwave_forces}` except that the simulation gravity loop has no
maximum-range check; the bodies are factored out here and reused. -/

/-- Per-point body of the pointer force (shared between physics.rs and
simulation.rs).  `radius_sq`, `strength`, `velocity_boost` are the values
hoisted out of the loop in the source. -/
def mouseForceBody (sqrtQ : ℚ → ℚ) (mode : MouseMode)
    (mx my radius radius_sq strength velocity_boost : ℚ) (point : Point) : Point :=
  let dx := point.x - mx
  let dy := point.y - my
  let dist_sq := dx * dx + dy * dy
  if radius_sq ≤ dist_sq ∨ dist_sq < MIN_DIST_SQ then point
  else
    let dist := sqrtQ dist_sq
    let t := 1 - dist / radius
    let falloff := t * t * (3 - 2 * t)
    let push := strength * falloff * velocity_boost * 0.08
    let inv_dist := 1 / dist
    match mode with
    | .Push =>
        let nx := dx * inv_dist
        let ny := dy * inv_dist
        { point with dx := point.dx + nx * push, dy := point.dy + ny * push }
    | .Pull =>
        let nx := dx * inv_dist
        let ny := dy * inv_dist
        { point with dx := point.dx - nx * push * 0.5, dy := point.dy - ny * push * 0.5 }
    | .Swirl =>
        let tangent_x := -dy * inv_dist
        let tangent_y := dx * inv_dist
        let dx1 := point.dx + tangent_x * push * 0.7
        let dy1 := point.dy + tangent_y * push * 0.7
        let nx := dx * inv_dist
        let ny := dy * inv_dist
        { point with dx := dx1 + nx * push * 0.2, dy := dy1 + ny * push * 0.2 }

/-- Per-point body of the gravity-well force as inlined in
`Simulation::apply_gravity_well` (simulation.rs): **no maximum-range
check**; distance clamped below at `GRAVITY_WELL_MIN_DIST`. -/
def gravityForceBodySim (sqrtQ : ℚ → ℚ) (well : GravityWell) (point : Point) : Point :=
  let dx := well.x - point.x
  let dy := well.y - point.y
  let dist_sq := dx * dx + dy * dy
  let min_dist_sq := GRAVITY_WELL_MIN_DIST * GRAVITY_WELL_MIN_DIST
  let dist := if dist_sq < min_dist_sq then GRAVITY_WELL_MIN_DIST else sqrtQ dist_sq
  let force := well.strength / (dist * 0.1)
  let inv_dist := 1 / dist
  let nx := dx * inv_dist
  let ny := dy * inv_dist
  { point with dx := point.dx + nx * force, dy := point.dy + ny * force }

/-- Per-point body of `physics.rs::apply_gravity_well`: candidates beyond
`GRAVITY_WELL_MAX_RANGE` are skipped (`continue`), otherwise identical to
the simulation.rs body. -/
def gravityForceBodyGrid (sqrtQ : ℚ → ℚ) (well : GravityWell) (point : Point) : Point :=
  let dx := well.x - point.x
  let dy := well.y - point.y
  let dist_sq := dx * dx + dy * dy
  let max_range_sq := GRAVITY_WELL_MAX_RANGE * GRAVITY_WELL_MAX_RANGE
  if max_range_sq < dist_sq then point
  else gravityForceBodySim sqrtQ well point

/-- Per-point body of the shockwave ring force (shared). -/
def shockwaveForceBody (sqrtQ : ℚ → ℚ) (wave : Shockwave) (point : Point) : Point :=
  let min_radius := max (wave.radius - SHOCKWAVE_WAVE_WIDTH) 0
  let max_radius := wave.radius + SHOCKWAVE_WAVE_WIDTH
  let min_radius_sq := min_radius * min_radius
  let max_radius_sq := max_radius * max_radius
  let dx := point.x - wave.x
  let dy := point.y - wave.y
  let dist_sq := dx * dx + dy * dy
  if dist_sq < min_radius_sq ∨ max_radius_sq < dist_sq ∨ dist_sq < MIN_DIST_SQ then point
  else
    let dist := sqrtQ dist_sq
    let ring_dist := |dist - wave.radius|
    if ring_dist < SHOCKWAVE_WAVE_WIDTH then
      let falloff := 1 - ring_dist / SHOCKWAVE_WAVE_WIDTH
      let push := wave.strength * falloff * 0.15
      let inv_dist := 1 / dist
      let nx := dx * inv_dist
      let ny := dy * inv_dist
      { point with dx := point.dx + nx * push, dy := point.dy + ny * push }
    else point

/-! ### physics.rs — grid-based kernels

Each kernel queries the grid and mutates `points[idx]` in place for each
candidate index; modelled as a fold of `List.set` updates. -/

namespace physics

/-- Apply `body` to `points[idx]` for each candidate index in turn
(the `for point_idx in nearby { let point = &mut points[point_idx]; … }`
loop shape). -/
def applyAt (body : Point → Point) (points : List Point) (nearby : List ℕ) : List Point :=
  nearby.foldl (fun pts idx => pts.set idx (body (pts.getD idx default))) points

/-- `physics.rs::apply_mouse_influence`. -/
def apply_mouse_influence (sqrtQ : ℚ → ℚ) (points : List Point)
    (mouse : MouseState) (velocity_influence : ℚ) (grid : SpatialGrid) : List Point :=
  if !mouse.in_canvas then points
  else
    let radius := mouse.radius
    let radius_sq := radius * radius
    let strength := mouse.strength
    let velocity_boost := 1 + mouse.speed sqrtQ * velocity_influence
    let nearby := grid.query_radius mouse.x mouse.y radius
    applyAt (mouseForceBody sqrtQ mouse.mode mouse.x mouse.y radius radius_sq
      strength velocity_boost) points nearby

/-- `physics.rs::apply_gravity_well`. -/
def apply_gravity_well (sqrtQ : ℚ → ℚ) (points : List Point)
    (well : GravityWell) (grid : SpatialGrid) : List Point :=
  let nearby := grid.query_radius well.x well.y GRAVITY_WELL_MAX_RANGE
  applyAt (gravityForceBodyGrid sqrtQ well) points nearby

/-- `physics.rs::apply_shockwave`. -/
def apply_shockwave (sqrtQ : ℚ → ℚ) (points : List Point)
    (wave : Shockwave) (grid : SpatialGrid) : List Point :=
  let max_radius := wave.radius + SHOCKWAVE_WAVE_WIDTH
  let nearby := grid.query_radius wave.x wave.y max_radius
  applyAt (shockwaveForceBody sqrtQ wave) points nearby

end physics

/-! ### simulation.rs — the `wasm_bindgen` `Simulation` -/

structure Simulation where
  points : List Point
  width : ℚ
  height : ℚ
  rng : Rng
  triangle_vertices : List ℚ
  stroke_vertices : List ℚ
  point_vertices : List ℚ
  noise_scale : ℚ
  height_intensity : ℚ
  mouse_x : ℚ
  mouse_y : ℚ
  prev_mouse_x : ℚ
  prev_mouse_y : ℚ
  mouse_vx : ℚ
  mouse_vy : ℚ
  mouse_in_canvas : Bool
  mouse_radius : ℚ
  mouse_strength : ℚ
  mouse_mode : MouseMode
  spring_back : ℚ
  damping : ℚ
  velocity_influence : ℚ
  shockwaves : List Shockwave
  gravity_well : Option GravityWell
  deriving Repr, DecidableEq

namespace Simulation

/-- `Simulation::validate_point_count`: `count.max(3).min(10000)`. -/
def validate_point_count (count : ℕ) : ℕ :=
  min (max count 3) 10000

/-- `Simulation::validate_dimensions`: `value.max(1.0).min(100000.0)`. -/
def validate_dimensions (value : ℚ) : ℚ :=
  min (max value 1) 100000

/-- The point-creation loop of `Simulation::new` /
`Simulation::set_point_count` (identical to repeated
`Point::new_random`): generate `n` points, threading the generator. -/
def genPoints (sqrtQ : ℚ → ℚ) (rng : Rng)
    (width height noise_scale height_intensity : ℚ) : ℕ → List Point × Rng
  | 0 => ([], rng)
  | n + 1 =>
      let (p, rng') := Point.new_random sqrtQ rng width height noise_scale height_intensity
      let (rest, rng'') := genPoints sqrtQ rng' width height noise_scale height_intensity n
      (p :: rest, rng'')

/-- `Simulation::new`. -/
def new (sqrtQ : ℚ → ℚ) (width height : ℚ) (point_count seed : ℕ) : Simulation :=
  let width := validate_dimensions width
  let height := validate_dimensions height
  let point_count := validate_point_count point_count
  let rng := Rng.new seed
  let noise_scale : ℚ := 0.003
  let height_intensity : ℚ := 0.6
  let (points, rng') := genPoints sqrtQ rng width height noise_scale height_intensity point_count
  { points := points
    width := width
    height := height
    rng := rng'
    triangle_vertices := []
    stroke_vertices := []
    point_vertices := []
    noise_scale := noise_scale
    height_intensity := height_intensity
    mouse_x := 0, mouse_y := 0, prev_mouse_x := 0, prev_mouse_y := 0
    mouse_vx := 0, mouse_vy := 0
    mouse_in_canvas := false
    mouse_radius := 150
    mouse_strength := 80
    mouse_mode := .Push
    spring_back := DEFAULT_SPRING_BACK
    damping := DEFAULT_DAMPING
    velocity_influence := DEFAULT_VELOCITY_INFLUENCE
    shockwaves := []
    gravity_well := none }

/-- `Simulation::set_noise_params`: clamp the parameters, regenerate every
static height from the base position. -/
def set_noise_params (sqrtQ : ℚ → ℚ) (s : Simulation)
    (noise_scale height_intensity : ℚ) : Simulation :=
  let ns := min (max noise_scale 0.0001) 1
  let hi := min (max height_intensity 0) 2
  { s with
      noise_scale := ns
      height_intensity := hi
      points := s.points.map fun p =>
        { p with z := Point.calculate_height sqrtQ p.base_x p.base_y s.width s.height ns hi } }

/-- `Simulation::set_mouse_state` (same smoothing as
`MouseState::update`). -/
def set_mouse_state (s : Simulation) (x y : ℚ) (in_canvas : Bool)
    (radius strength : ℚ) (mode : ℕ) : Simulation :=
  let prev_mouse_x := s.mouse_x
  let prev_mouse_y := s.mouse_y
  let mouse_vx :=
    if in_canvas then (x - prev_mouse_x) * 0.4 + s.mouse_vx * 0.6 else s.mouse_vx * 0.9
  let mouse_vy :=
    if in_canvas then (y - prev_mouse_y) * 0.4 + s.mouse_vy * 0.6 else s.mouse_vy * 0.9
  { s with
      prev_mouse_x := prev_mouse_x
      prev_mouse_y := prev_mouse_y
      mouse_x := x
      mouse_y := y
      mouse_in_canvas := in_canvas
      mouse_radius := radius
      mouse_strength := strength
      mouse_vx := mouse_vx
      mouse_vy := mouse_vy
      mouse_mode := MouseMode.from_u32 mode }

/-- `Simulation::set_physics_params`. -/
def set_physics_params (s : Simulation)
    (spring_back damping velocity_influence : ℚ) : Simulation :=
  { s with
      spring_back := spring_back
      damping := damping
      velocity_influence := velocity_influence }

/-- `Simulation::trigger_shockwave`: same capacity/FIFO logic as
`ShockwaveManager::add`. -/
def trigger_shockwave (s : Simulation) (x y strength : ℚ) : Simulation :=
  let waves :=
    if MAX_SHOCKWAVES ≤ s.shockwaves.length then s.shockwaves.drop 1 else s.shockwaves
  { s with shockwaves := waves ++ [Shockwave.new x y strength] }

/-- `Simulation::set_gravity_well`. -/
def set_gravity_well (s : Simulation) (x y : ℚ) (active attract : Bool) : Simulation :=
  if active then
    { s with
        gravity_well := some
          { x := x, y := y,
            strength :=
              if attract then GRAVITY_WELL_ATTRACT_STRENGTH
              else GRAVITY_WELL_REPEL_STRENGTH } }
  else { s with gravity_well := none }

/-- `Simulation::update_gravity_well_position`. -/
def update_gravity_well_position (s : Simulation) (x y : ℚ) : Simulation :=
  match s.gravity_well with
  | some well => { s with gravity_well := some { well with x := x, y := y } }
  | none => s

/-- `Simulation::resize`: rescale all positions proportionally (widths
are validated, so the previous dimensions are positive in practice; the
source still guards on `> 0.0`). -/
def resize (s : Simulation) (new_width new_height : ℚ) : Simulation :=
  let nw := validate_dimensions new_width
  let nh := validate_dimensions new_height
  let points :=
    if 0 < s.width ∧ 0 < s.height then
      let scale_x := nw / s.width
      let scale_y := nh / s.height
      s.points.map fun p => p.scale scale_x scale_y
    else s.points
  { s with width := nw, height := nh, points := points }

/-- `Simulation::set_point_count`: re-seed the RNG, push new random
points while below `count`, then truncate to `count`. -/
def set_point_count (sqrtQ : ℚ → ℚ) (s : Simulation) (count seed : ℕ) : Simulation :=
  let count := validate_point_count count
  let rng := Rng.new seed
  let (newPts, rng') :=
    genPoints sqrtQ rng s.width s.height s.noise_scale s.height_intensity
      (count - s.points.length)
  { s with rng := rng', points := (s.points ++ newPts).take count }

/-- `Simulation::update_shockwaves` (identical body to
`ShockwaveManager::update`). -/
def update_shockwaves (s : Simulation) : Simulation :=
  { s with shockwaves := shockwavesFrame s.shockwaves }

/-- `Simulation::apply_mouse_influence` (simulation.rs: iterates over
*all* points; the per-point body is `mouseForceBody`). -/
def apply_mouse_influence (sqrtQ : ℚ → ℚ) (s : Simulation) : Simulation :=
  if !s.mouse_in_canvas then s
  else
    let radius_sq := s.mouse_radius * s.mouse_radius
    let mouse_speed := sqrtQ (s.mouse_vx * s.mouse_vx + s.mouse_vy * s.mouse_vy)
    let velocity_boost := 1 + mouse_speed * s.velocity_influence
    { s with
        points := s.points.map
          (mouseForceBody sqrtQ s.mouse_mode s.mouse_x s.mouse_y s.mouse_radius
            radius_sq s.mouse_strength velocity_boost) }

/-- `Simulation::apply_gravity_well` (simulation.rs: iterates over *all*
points, no maximum-range check). -/
def apply_gravity_well (sqrtQ : ℚ → ℚ) (s : Simulation) : Simulation :=
  match s.gravity_well with
  | some well => { s with points := s.points.map (gravityForceBodySim sqrtQ well) }
  | none => s

/-- `Simulation::apply_shockwave_forces` (simulation.rs: for each wave,
iterate over all points). -/
def apply_shockwave_forces (sqrtQ : ℚ → ℚ) (s : Simulation) : Simulation :=
  { s with
      points := s.shockwaves.foldl
        (fun pts wave => pts.map (shockwaveForceBody sqrtQ wave)) s.points }

/-- The per-point integration inlined in `Simulation::update_points`
(textually `Point::update_position` followed by `Point::apply_spring`). -/
def integrate (spring_back damping dt speed width height : ℚ) (p : Point) : Point :=
  (p.update_position dt speed width height).apply_spring spring_back damping

/-- `Simulation::update_points`: clamp dt/speed, tick shockwaves,
integrate every point, then apply the three force kernels. -/
def update_points (sqrtQ : ℚ → ℚ) (s : Simulation) (delta_time speed : ℚ) : Simulation :=
  let dt := min (max delta_time 0) 10
  let sp := min (max speed 0) 10
  let s1 := s.update_shockwaves
  let s2 :=
    { s1 with
        points := s1.points.map (integrate s.spring_back s.damping dt sp s.width s.height) }
  (((s2.apply_mouse_influence sqrtQ).apply_gravity_well sqrtQ).apply_shockwave_forces sqrtQ)

/-- `Simulation::generate_ghost_points`: up to 4 edge mirrors and up to 4
corner mirrors per near-edge point, in source push order. -/
def generate_ghost_points (s : Simulation) : List (ℚ × ℚ × ℚ) :=
  let threshold_x := s.width * GHOST_THRESHOLD
  let threshold_y := s.height * GHOST_THRESHOLD
  s.points.flatMap fun p =>
    let near_left := p.x < threshold_x
    let near_right := s.width - threshold_x < p.x
    let near_top := p.y < threshold_y
    let near_bottom := s.height - threshold_y < p.y
    (if near_left then [(p.x + s.width, p.y, p.z)] else []) ++
    (if near_right then [(p.x - s.width, p.y, p.z)] else []) ++
    (if near_top then [(p.x, p.y + s.height, p.z)] else []) ++
    (if near_bottom then [(p.x, p.y - s.height, p.z)] else []) ++
    (if near_left ∧ near_top then [(p.x + s.width, p.y + s.height, p.z)] else []) ++
    (if near_left ∧ near_bottom then [(p.x + s.width, p.y - s.height, p.z)] else []) ++
    (if near_right ∧ near_top then [(p.x - s.width, p.y + s.height, p.z)] else []) ++
    (if near_right ∧ near_bottom then [(p.x - s.width, p.y - s.height, p.z)] else [])

/-- `Simulation::triangulate`: ghosts + 4 corner anchors, run the
(external, deterministic) Delaunay routine, rebuild the three buffers.
The source walks `triangles` in steps of 3; `delaunator` always returns
a multiple of 3 indices, so the walk is over the `len/3` complete
triples. -/
def triangulate (delaunayFn : List (ℚ × ℚ) → List ℕ) (s : Simulation) :
    Simulation × ℕ :=
  let ghosts := s.generate_ghost_points
  let margin : ℚ := 1
  let corners : List (ℚ × ℚ × ℚ) :=
    [(-margin, -margin, 0), (s.width + margin, -margin, 0),
     (s.width + margin, s.height + margin, 0), (-margin, s.height + margin, 0)]
  let all_points := (s.points.map fun p => (p.x, p.y, p.z)) ++ ghosts ++ corners
  let delaunay_points := all_points.map fun t => (t.1, t.2.1)
  let triangles := delaunayFn delaunay_points
  let num_triangles := triangles.length / 3
  let triangle_vertices := (List.range num_triangles).flatMap fun ti =>
    let p0 := all_points.getD (triangles.getD (3 * ti) 0) (0, 0, 0)
    let p1 := all_points.getD (triangles.getD (3 * ti + 1) 0) (0, 0, 0)
    let p2 := all_points.getD (triangles.getD (3 * ti + 2) 0) (0, 0, 0)
    let centroid_x := (p0.1 + p1.1 + p2.1) / 3
    let centroid_y := (p0.2.1 + p1.2.1 + p2.2.1) / 3
    let avg_height := (p0.2.2 + p1.2.2 + p2.2.2) / 3
    [p0.1, p0.2.1, avg_height, centroid_y, centroid_x, centroid_y,
     p1.1, p1.2.1, avg_height, centroid_y, centroid_x, centroid_y,
     p2.1, p2.2.1, avg_height, centroid_y, centroid_x, centroid_y]
  let stroke_vertices := (List.range num_triangles).flatMap fun ti =>
    let p0 := all_points.getD (triangles.getD (3 * ti) 0) (0, 0, 0)
    let p1 := all_points.getD (triangles.getD (3 * ti + 1) 0) (0, 0, 0)
    let p2 := all_points.getD (triangles.getD (3 * ti + 2) 0) (0, 0, 0)
    [p0.1, p0.2.1, p1.1, p1.2.1,
     p1.1, p1.2.1, p2.1, p2.2.1,
     p2.1, p2.2.1, p0.1, p0.2.1]
  let point_vertices := s.points.flatMap fun p => [p.x, p.y]
  ({ s with
      triangle_vertices := triangle_vertices
      stroke_vertices := stroke_vertices
      point_vertices := point_vertices }, num_triangles)

/-- `Simulation::tick`: mouse update + physics step + triangulation. -/
def tick (sqrtQ : ℚ → ℚ) (delaunayFn : List (ℚ × ℚ) → List ℕ) (s : Simulation)
    (delta_time speed mouse_x mouse_y : ℚ) (mouse_in_canvas : Bool)
    (mouse_radius mouse_strength : ℚ) (mouse_mode : ℕ) : Simulation × ℕ :=
  let s1 := s.set_mouse_state mouse_x mouse_y mouse_in_canvas mouse_radius
    mouse_strength mouse_mode
  let s2 := s1.update_points sqrtQ delta_time speed
  s2.triangulate delaunayFn

/-- The three output buffers (`get_triangle_vertices`,
`get_stroke_vertices`, `get_point_vertices`). -/
def outputs (s : Simulation) : List ℚ × List ℚ × List ℚ :=
  (s.triangle_vertices, s.stroke_vertices, s.point_vertices)

end Simulation

/-- One host-facing API call with its arguments (§6 of the spec). -/
inductive ApiCall where
  | setNoiseParams (noise_scale height_intensity : ℚ)
  | setMouseState (x y : ℚ) (in_canvas : Bool) (radius strength : ℚ) (mode : ℕ)
  | setPhysicsParams (spring_back damping velocity_influence : ℚ)
  | triggerShockwave (x y strength : ℚ)
  | setGravityWell (x y : ℚ) (active attract : Bool)
  | updateGravityWellPosition (x y : ℚ)
  | resizeCanvas (w h : ℚ)
  | setPointCount (count seed : ℕ)
  | stepFrame (delta_time speed : ℚ)
  | runTriangulate
  | tickCall (delta_time speed mouse_x mouse_y : ℚ) (mouse_in_canvas : Bool)
      (mouse_radius mouse_strength : ℚ) (mouse_mode : ℕ)
  deriving Repr, DecidableEq

/-- Interpret one API call on the simulation state. -/
def applyCall (sqrtQ : ℚ → ℚ) (delaunayFn : List (ℚ × ℚ) → List ℕ)
    (s : Simulation) : ApiCall → Simulation
  | .setNoiseParams ns hi => s.set_noise_params sqrtQ ns hi
  | .setMouseState x y ic r st m => s.set_mouse_state x y ic r st m
  | .setPhysicsParams sb d vi => s.set_physics_params sb d vi
  | .triggerShockwave x y st => s.trigger_shockwave x y st
  | .setGravityWell x y act att => s.set_gravity_well x y act att
  | .updateGravityWellPosition x y => s.update_gravity_well_position x y
  | .resizeCanvas w h => s.resize w h
  | .setPointCount c seed => s.set_point_count sqrtQ c seed
  | .stepFrame dt sp => s.update_points sqrtQ dt sp
  | .runTriangulate => (s.triangulate delaunayFn).1
  | .tickCall dt sp mx my ic mr ms mm =>
      (s.tick sqrtQ delaunayFn dt sp mx my ic mr ms mm).1

/-- Drive a simulation through a sequence of API calls. -/
def applyCalls (sqrtQ : ℚ → ℚ) (delaunayFn : List (ℚ × ℚ) → List ℕ)
    (calls : List ApiCall) (s : Simulation) : Simulation :=
  calls.foldl (applyCall sqrtQ delaunayFn) s

/-! ## Theorems -/

/-! ### C1 — integration invariant -/

/-- **C1.** For every particle and all parameter values
(dt, speed, bounds, springBack, damping), after executing the integration
step — `update_position` (advance) followed by `apply_spring` — on that
particle, `x == base_x + dx` and `y == base_y + dy` hold exactly (both
for the `point.rs` functions and for the identical inlined sequence
`Simulation.integrate` of `Simulation::update_points`). -/
theorem c1_integration_invariant
    (p : Point) (delta_time speed width height spring_back damping : ℚ) :
    (((p.update_position delta_time speed width height).apply_spring
        spring_back damping).x
      = ((p.update_position delta_time speed width height).apply_spring
          spring_back damping).base_x
        + ((p.update_position delta_time speed width height).apply_spring
            spring_back damping).dx ∧
     ((p.update_position delta_time speed width height).apply_spring
        spring_back damping).y
      = ((p.update_position delta_time speed width height).apply_spring
          spring_back damping).base_y
        + ((p.update_position delta_time speed width height).apply_spring
            spring_back damping).dy) ∧
    ((Simulation.integrate spring_back damping delta_time speed width height p).x
      = (Simulation.integrate spring_back damping delta_time speed width height p).base_x
        + (Simulation.integrate spring_back damping delta_time speed width height p).dx ∧
     (Simulation.integrate spring_back damping delta_time speed width height p).y
      = (Simulation.integrate spring_back damping delta_time speed width height p).base_y
        + (Simulation.integrate spring_back damping delta_time speed width height p).dy) :=
  ⟨⟨rfl, rfl⟩, ⟨rfl, rfl⟩⟩

/-! ### C5 — single-wrap repositioning -/

/-- **C5.** If the per-call displacement `|v * speed * dt|` is bounded
below the corresponding dimension (and the base coordinate starts inside
`[0, dimension]`, the range the code maintains), one call to
`update_position` repositions a base coordinate that left the bounds
back into `[0, width)` resp. `[0, height)`, by adding or subtracting the
dimension exactly once per axis; each axis depends only on its own data. -/
theorem c5_wrapping (p : Point) (delta_time speed width height : ℚ)
    (hx0 : 0 ≤ p.base_x) (hx1 : p.base_x ≤ width)
    (hy0 : 0 ≤ p.base_y) (hy1 : p.base_y ≤ height)
    (hdx : |p.vx * speed * delta_time| < width)
    (hdy : |p.vy * speed * delta_time| < height) :
    ((p.base_x + p.vx * speed * delta_time < 0 →
        (p.update_position delta_time speed width height).base_x
          = p.base_x + p.vx * speed * delta_time + width) ∧
     (width < p.base_x + p.vx * speed * delta_time →
        (p.update_position delta_time speed width height).base_x
          = p.base_x + p.vx * speed * delta_time - width) ∧
     (p.base_x + p.vx * speed * delta_time < 0 ∨
        width < p.base_x + p.vx * speed * delta_time →
        0 ≤ (p.update_position delta_time speed width height).base_x ∧
        (p.update_position delta_time speed width height).base_x < width)) ∧
    ((p.base_y + p.vy * speed * delta_time < 0 →
        (p.update_position delta_time speed width height).base_y
          = p.base_y + p.vy * speed * delta_time + height) ∧
     (height < p.base_y + p.vy * speed * delta_time →
        (p.update_position delta_time speed width height).base_y
          = p.base_y + p.vy * speed * delta_time - height) ∧
     (p.base_y + p.vy * speed * delta_time < 0 ∨
        height < p.base_y + p.vy * speed * delta_time →
        0 ≤ (p.update_position delta_time speed width height).base_y ∧
        (p.update_position delta_time speed width height).base_y < height)) ∧
    ((∀ p₂ : Point, p₂.base_x = p.base_x → p₂.vx = p.vx →
        (p₂.update_position delta_time speed width height).base_x
          = (p.update_position delta_time speed width height).base_x) ∧
     (∀ p₂ : Point, p₂.base_y = p.base_y → p₂.vy = p.vy →
        (p₂.update_position delta_time speed width height).base_y
          = (p.update_position delta_time speed width height).base_y)) := by
  obtain ⟨hdx1, hdx2⟩ := abs_lt.mp hdx
  obtain ⟨hdy1, hdy2⟩ := abs_lt.mp hdy
  simp only [Point.update_position]
  refine ⟨⟨?_, ?_, ?_⟩, ⟨?_, ?_, ?_⟩, ?_, ?_⟩
  · intro h; split_ifs <;> linarith
  · intro h; split_ifs <;> linarith
  · intro h; rcases h with h | h <;> [skip; skip] <;> split_ifs <;>
      constructor <;> linarith
  · intro h; split_ifs <;> linarith
  · intro h; split_ifs <;> linarith
  · intro h; rcases h with h | h <;> [skip; skip] <;> split_ifs <;>
      constructor <;> linarith
  · intro p₂ hb hv; rw [hb, hv]
  · intro p₂ hb hv; rw [hb, hv]

/-- Witness for C5 at a concrete particle: base `(5, 1)`, drift `(7, -3)`,
bounds `10 × 10`, `dt = speed = 1`: the x-axis overflows to 12 and wraps
to 2, the y-axis underflows to −2 and wraps to 8. -/
theorem c5_wrapping_witness :
    ((0 : ℚ) ≤ 5 ∧ (5 : ℚ) ≤ 10 ∧ |(7 : ℚ) * 1 * 1| < 10 ∧ |(-3 : ℚ) * 1 * 1| < 10) ∧
    (({ x := 5, y := 1, z := 0, base_x := 5, base_y := 1, vx := 7, vy := -3,
        dx := 0, dy := 0 } : Point).update_position 1 1 10 10).base_x
      = (5 : ℚ) + 7 * 1 * 1 - 10 ∧
    (({ x := 5, y := 1, z := 0, base_x := 5, base_y := 1, vx := 7, vy := -3,
        dx := 0, dy := 0 } : Point).update_position 1 1 10 10).base_y
      = (1 : ℚ) + -3 * 1 * 1 + 10 := by
  refine ⟨by norm_num, ?_, ?_⟩
  · exact (c5_wrapping
      { x := 5, y := 1, z := 0, base_x := 5, base_y := 1, vx := 7, vy := -3,
        dx := 0, dy := 0 } 1 1 10 10 (by norm_num) (by norm_num) (by norm_num)
      (by norm_num) (by norm_num) (by norm_num)).1.2.1 (by norm_num)
  · exact (c5_wrapping
      { x := 5, y := 1, z := 0, base_x := 5, base_y := 1, vx := 7, vy := -3,
        dx := 0, dy := 0 } 1 1 10 10 (by norm_num) (by norm_num) (by norm_num)
      (by norm_num) (by norm_num) (by norm_num)).2.1.1 (by norm_num)

/-! ### C4 — determinism -/

/-- **C4.** Two simulations created with identical
`(width, height, pointCount, seed)` and driven by the same sequence of
API calls with the same arguments have bit-identical output buffers
after every call.  (The embedding is a pure state-transition function of
the creation parameters and the call sequence — the code has no input
besides the seeded xorshift RNG, the fixed `sqrt` routine and the fixed
Delaunay routine — so equal initial states evolve identically.) -/
theorem c4_determinism (sqrtQ : ℚ → ℚ) (delaunayFn : List (ℚ × ℚ) → List ℕ)
    (width height : ℚ) (point_count seed : ℕ) (calls : List ApiCall)
    (s1 s2 : Simulation)
    (h1 : s1 = Simulation.new sqrtQ width height point_count seed)
    (h2 : s2 = Simulation.new sqrtQ width height point_count seed) :
    ∀ k : ℕ,
      Simulation.outputs (applyCalls sqrtQ delaunayFn (calls.take k) s1)
        = Simulation.outputs (applyCalls sqrtQ delaunayFn (calls.take k) s2) := by
  subst h1; subst h2; intro k; rfl

/-- Witness for C4: two copies of the `800 × 600`, 3-point, seed-42
simulation driven through one `stepFrame` call agree on all buffers. -/
theorem c4_determinism_witness :
    Simulation.outputs
      (applyCalls (fun _ => 0) (fun _ => []) ([ApiCall.stepFrame 1 1].take 1)
        (Simulation.new (fun _ => 0) 800 600 3 42))
      = Simulation.outputs
          (applyCalls (fun _ => 0) (fun _ => []) ([ApiCall.stepFrame 1 1].take 1)
            (Simulation.new (fun _ => 0) 800 600 3 42)) :=
  c4_determinism (fun _ => 0) (fun _ => []) 800 600 3 42 [ApiCall.stepFrame 1 1]
    (Simulation.new (fun _ => 0) 800 600 3 42)
    (Simulation.new (fun _ => 0) 800 600 3 42) rfl rfl 1

/-! ### C10 — seed 0 ≡ seed 1 -/

/-- **C10.** `Rng::new` remaps seed 0 to internal state 1, hence creating
a simulation with seed 0 yields exactly the same state as seed 1 (and
identical output buffers under any identical call sequence), and
`set_point_count` with seed 0 equals `set_point_count` with seed 1. -/
theorem c10_seed_zero_eq_seed_one (sqrtQ : ℚ → ℚ) (width height : ℚ)
    (point_count : ℕ) (s : Simulation) (count : ℕ)
    (delaunayFn : List (ℚ × ℚ) → List ℕ) (calls : List ApiCall) :
    Rng.new 0 = Rng.new 1 ∧
    Simulation.new sqrtQ width height point_count 0
      = Simulation.new sqrtQ width height point_count 1 ∧
    s.set_point_count sqrtQ count 0 = s.set_point_count sqrtQ count 1 ∧
    Simulation.outputs (applyCalls sqrtQ delaunayFn calls
        (Simulation.new sqrtQ width height point_count 0))
      = Simulation.outputs (applyCalls sqrtQ delaunayFn calls
          (Simulation.new sqrtQ width height point_count 1)) := by
  have h : Rng.new 0 = Rng.new 1 := rfl
  have h2 : Simulation.new sqrtQ width height point_count 0
      = Simulation.new sqrtQ width height point_count 1 := by
    unfold Simulation.new; rw [h]
  refine ⟨h, h2, ?_, by rw [h2]⟩
  unfold Simulation.set_point_count; rw [h]

/-! ### C6 — shockwave capacity and FIFO eviction -/

/-- `ShockwaveManager::add` preserves the capacity bound. -/
theorem mgr_add_length_le (m : ShockwaveManager) (x y s : ℚ)
    (h : m.waves.length ≤ 10) : (m.add x y s).waves.length ≤ 10 := by
  simp only [ShockwaveManager.add, MAX_SHOCKWAVES]
  split_ifs with hc <;> simp [List.length_drop] <;> omega

/-- Any operation sequence keeps the wave count within capacity. -/
theorem runMgrOps_length_le (ops : List MgrOp) :
    ∀ m : ShockwaveManager, m.waves.length ≤ 10 →
      (runMgrOps ops m).waves.length ≤ 10 := by
  induction ops with
  | nil => intro m h; exact h
  | cons op rest ih =>
      intro m h
      cases op with
      | addWave x y s =>
          exact ih _ (mgr_add_length_le m x y s h)
      | frame =>
          apply ih
          simp only [ShockwaveManager.update, shockwavesFrame]
          calc ((m.waves.map Shockwave.update).filter Shockwave.is_active).length
              ≤ (m.waves.map Shockwave.update).length := List.length_filter_le _ _
            _ = m.waves.length := List.length_map _ _
            _ ≤ 10 := h

/-- **C6.** The shockwave collection never exceeds 10 waves under any
operation sequence from the empty manager, and an `add` on a full
collection drops exactly the oldest (head) wave, appends the new one at
the back, keeps the others in order, and leaves the count at 10; the
identically-coded `Simulation::trigger_shockwave` behaves the same. -/
theorem c6_capacity_fifo (ops : List MgrOp) (m : ShockwaveManager)
    (x y strength : ℚ) (hm : m.waves.length = 10) :
    (runMgrOps ops ShockwaveManager.new).waves.length ≤ 10 ∧
    (m.add x y strength).waves = m.waves.drop 1 ++ [Shockwave.new x y strength] ∧
    (m.add x y strength).waves.length = 10 ∧
    (∀ sim : Simulation, sim.shockwaves = m.waves →
      (sim.trigger_shockwave x y strength).shockwaves
        = m.waves.drop 1 ++ [Shockwave.new x y strength]) := by
  refine ⟨runMgrOps_length_le ops ShockwaveManager.new
    (by simp [ShockwaveManager.new]), ?_, ?_, ?_⟩
  · simp [ShockwaveManager.add, MAX_SHOCKWAVES, hm]
  · simp [ShockwaveManager.add, MAX_SHOCKWAVES, hm]
  · intro sim hs
    simp [Simulation.trigger_shockwave, MAX_SHOCKWAVES, hs, hm]

/-- Witness for C6 at a concrete full manager (10 waves) and sample
operation sequence. -/
theorem c6_capacity_fifo_witness :
    (runMgrOps [MgrOp.addWave 1 1 50, MgrOp.frame]
      ShockwaveManager.new).waves.length ≤ 10 ∧
    (ShockwaveManager.add ⟨List.replicate 10 (Shockwave.new 0 0 100)⟩ 1 2 3).waves
      = (List.replicate 10 (Shockwave.new 0 0 100)).drop 1 ++ [Shockwave.new 1 2 3] ∧
    (ShockwaveManager.add ⟨List.replicate 10 (Shockwave.new 0 0 100)⟩ 1 2 3).waves.length
      = 10 := by
  have h := c6_capacity_fifo [MgrOp.addWave 1 1 50, MgrOp.frame]
    ⟨List.replicate 10 (Shockwave.new 0 0 100)⟩ 1 2 3 (by simp)
  exact ⟨h.1, h.2.1, h.2.2.1⟩

/-! ### C7 — shockwave decay, deactivation and pruning -/

/-- Strength after `n` ticks is the initial (clamped) strength times
`SHOCKWAVE_DECAY ^ n`. -/
theorem shockwave_strength_iterate (w : Shockwave) (n : ℕ) :
    (Shockwave.update^[n] w).strength = w.strength * SHOCKWAVE_DECAY ^ n := by
  induction n with
  | zero => simp
  | succ n ih =>
      rw [Function.iterate_succ_apply']
      simp only [Shockwave.update, ih, pow_succ]
      ring

/-- **C7.** For every shockwave created with any initial strength
(clamped into `[0, 500]` at spawn), the strength is monotonically
non-increasing under ticks, and after `N = 170` ticks (a bound uniform
over all legal initial strengths ≤ 500) the strength is ≤ 0.5, the wave
reports inactive, and the per-frame prune
(`ShockwaveManager::update` / `Simulation::update_shockwaves`) removes
it from any collection. -/
theorem c7_shockwave_decay (x y s0 : ℚ) :
    (∀ n : ℕ, (Shockwave.update^[n + 1] (Shockwave.new x y s0)).strength
        ≤ (Shockwave.update^[n] (Shockwave.new x y s0)).strength) ∧
    (Shockwave.update^[170] (Shockwave.new x y s0)).strength ≤ 0.5 ∧
    (Shockwave.update^[170] (Shockwave.new x y s0)).is_active = false ∧
    (∀ l : List Shockwave,
      Shockwave.update^[170] (Shockwave.new x y s0) ∉ shockwavesFrame l ∧
      Shockwave.update^[170] (Shockwave.new x y s0)
        ∉ (ShockwaveManager.update ⟨l⟩).waves) := by
  have hc0 : 0 ≤ (Shockwave.new x y s0).strength := by
    simp only [Shockwave.new]
    exact le_min (le_max_right _ _) (by norm_num)
  have hc500 : (Shockwave.new x y s0).strength ≤ 500 := by
    simp only [Shockwave.new]
    exact min_le_right _ _
  have hmono : ∀ n : ℕ, (Shockwave.update^[n + 1] (Shockwave.new x y s0)).strength
      ≤ (Shockwave.update^[n] (Shockwave.new x y s0)).strength := by
    intro n
    rw [shockwave_strength_iterate, shockwave_strength_iterate]
    have hpow : SHOCKWAVE_DECAY ^ (n + 1) ≤ SHOCKWAVE_DECAY ^ n :=
      pow_le_pow_of_le_one (by norm_num [SHOCKWAVE_DECAY])
        (by norm_num [SHOCKWAVE_DECAY]) (Nat.le_succ n)
    exact mul_le_mul_of_nonneg_left hpow hc0
  have hbound : (Shockwave.update^[170] (Shockwave.new x y s0)).strength ≤ 0.5 := by
    rw [shockwave_strength_iterate]
    have h1 : (Shockwave.new x y s0).strength * SHOCKWAVE_DECAY ^ 170
        ≤ 500 * SHOCKWAVE_DECAY ^ 170 :=
      mul_le_mul_of_nonneg_right hc500
        (pow_nonneg (by norm_num [SHOCKWAVE_DECAY]) 170)
    have h2 : (500 : ℚ) * SHOCKWAVE_DECAY ^ 170 ≤ 0.5 := by
      norm_num [SHOCKWAVE_DECAY]
    linarith
  have hinact : (Shockwave.update^[170] (Shockwave.new x y s0)).is_active = false := by
    simp only [Shockwave.is_active, decide_eq_false_iff_not, not_lt]
    exact hbound
  refine ⟨hmono, hbound, hinact, ?_⟩
  intro l
  have hnot : Shockwave.update^[170] (Shockwave.new x y s0) ∉ shockwavesFrame l := by
    intro hmem
    have := (List.mem_filter.mp hmem).2
    rw [hinact] at this
    exact Bool.false_ne_true this
  exact ⟨hnot, hnot⟩

/-! ### C9 — `next_f32` range -/

/-- One xorshift32 step stays below `2^32`. -/
theorem rng_step_lt {x : ℕ} (hx : x < 2 ^ 32) : Rng.step x < 2 ^ 32 := by
  unfold Rng.step U32_MOD
  have h1 : x ^^^ ((x <<< 13) % 2 ^ 32) < 2 ^ 32 :=
    Nat.xor_lt_two_pow hx (Nat.mod_lt _ (by norm_num))
  have h2 : (x ^^^ ((x <<< 13) % 2 ^ 32)) >>> 17 < 2 ^ 32 :=
    lt_of_le_of_lt
      (by rw [Nat.shiftRight_eq_div_pow]; exact Nat.div_le_self _ _) h1
  have h3 := Nat.xor_lt_two_pow h1 h2
  exact Nat.xor_lt_two_pow h3 (Nat.mod_lt _ (by norm_num))

/-- The generator state stays below `2^32` at every stream position. -/
theorem rng_afterDraws_state_lt (seed : ℕ) (hs : seed < 2 ^ 32) :
    ∀ n : ℕ, (Rng.afterDraws seed n).state < 2 ^ 32 := by
  intro n
  induction n with
  | zero =>
      show (Rng.new seed).state < 2 ^ 32
      simp only [Rng.new]
      split_ifs
      · norm_num
      · exact hs
  | succ n ih =>
      unfold Rng.afterDraws
      rw [Function.iterate_succ_apply']
      exact rng_step_lt ih

/-- **C9 (amended).** For every `u32` seed and every position in the
stream, `next_f32` produces a value in the *closed* interval `[0, 1]`
(the original claim's half-open `[0, 1)` fails: the word `u32::MAX` is
attainable and yields exactly 1). -/
theorem c9_next_f32_closed_range (seed : ℕ) (hs : seed < 2 ^ 32) (n : ℕ) :
    0 ≤ Rng.streamVal seed n ∧ Rng.streamVal seed n ≤ 1 := by
  have hlt : Rng.step (Rng.afterDraws seed n).state < 2 ^ 32 :=
    rng_step_lt (rng_afterDraws_state_lt seed hs n)
  have hle : (Rng.step (Rng.afterDraws seed n).state : ℚ) ≤ (2 : ℚ) ^ 32 - 1 := by
    have : Rng.step (Rng.afterDraws seed n).state ≤ 2 ^ 32 - 1 :=
      Nat.le_pred_of_lt hlt
    calc (Rng.step (Rng.afterDraws seed n).state : ℚ)
        ≤ ((2 ^ 32 - 1 : ℕ) : ℚ) := by exact_mod_cast this
      _ = (2 : ℚ) ^ 32 - 1 := by norm_num
  have hval : Rng.streamVal seed n
      = (Rng.step (Rng.afterDraws seed n).state : ℚ) / U32_MAX_Q := rfl
  constructor
  · rw [hval]
    exact div_nonneg (Nat.cast_nonneg _) (by norm_num [U32_MAX_Q])
  · rw [hval, div_le_one (by norm_num [U32_MAX_Q])]
    simpa [U32_MAX_Q] using hle

/-- Witness for C9 at seed 42, stream position 0. -/
theorem c9_next_f32_closed_range_witness :
    (42 : ℕ) < 2 ^ 32 ∧ 0 ≤ Rng.streamVal 42 0 ∧ Rng.streamVal 42 0 ≤ 1 :=
  ⟨by norm_num, c9_next_f32_closed_range 42 (by norm_num) 0⟩

/-- **C9 counterexample.** From seed `1584200935` the very first
`next_f32` value is exactly `1`, which does not lie in `[0, 1)`: the
xorshift32 step maps this state to the word `u32::MAX = 4294967295`, and
`u32::MAX / u32::MAX = 1` (the actual f32 evaluation also yields exactly
`1.0`, since both sides of the division round to `2^32`). -/
theorem c9_counterexample :
    Rng.streamVal 1584200935 0 = 1 ∧ ¬ Rng.streamVal 1584200935 0 < 1 := by
  have hstep : Rng.step 1584200935 = 4294967295 := by decide
  have hstate : (Rng.afterDraws 1584200935 0).state = 1584200935 := by
    show (Rng.new 1584200935).state = 1584200935
    simp [Rng.new]
  have hval : Rng.streamVal 1584200935 0 = 1 := by
    have h : Rng.streamVal 1584200935 0
        = (Rng.step (Rng.afterDraws 1584200935 0).state : ℚ) / U32_MAX_Q := rfl
    rw [h, hstate, hstep]
    norm_num [U32_MAX_Q]
  exact ⟨hval, by rw [hval]; exact lt_irrefl 1⟩

/-! ### C3 — gravity well force -/

/-- The `dist_sq` local of the gravity kernels. -/
def gravDistSq (well : GravityWell) (p : Point) : ℚ :=
  (well.x - p.x) * (well.x - p.x) + (well.y - p.y) * (well.y - p.y)

/-- The `dist` local of the gravity kernels: the true distance, clamped
below at `GRAVITY_WELL_MIN_DIST`. -/
def gravDistUsed (sqrtQ : ℚ → ℚ) (well : GravityWell) (p : Point) : ℚ :=
  if gravDistSq well p < GRAVITY_WELL_MIN_DIST * GRAVITY_WELL_MIN_DIST
  then GRAVITY_WELL_MIN_DIST else sqrtQ (gravDistSq well p)

/-- The displacement-velocity increments applied by the simulation.rs
gravity kernel. -/
def gravAddX (sqrtQ : ℚ → ℚ) (well : GravityWell) (p : Point) : ℚ :=
  (gravityForceBodySim sqrtQ well p).dx - p.dx

def gravAddY (sqrtQ : ℚ → ℚ) (well : GravityWell) (p : Point) : ℚ :=
  (gravityForceBodySim sqrtQ well p).dy - p.dy

/-- Unfolding of the gravity force body: the increments are
`n * force` with `n` the (clamped-distance) unit direction and
`force = strength / (dist * 0.1)`. -/
theorem gravityForceBodySim_add (sqrtQ : ℚ → ℚ) (well : GravityWell) (p : Point) :
    gravAddX sqrtQ well p
      = (well.x - p.x) * (1 / gravDistUsed sqrtQ well p)
        * (well.strength / (gravDistUsed sqrtQ well p * 0.1)) ∧
    gravAddY sqrtQ well p
      = (well.y - p.y) * (1 / gravDistUsed sqrtQ well p)
        * (well.strength / (gravDistUsed sqrtQ well p * 0.1)) := by
  unfold gravAddX gravAddY gravityForceBodySim gravDistUsed gravDistSq
  constructor <;> ring

/-- **C3 (amended).**  During a frame step
(`Simulation::apply_gravity_well`, simulation.rs) there is **no**
maximum-range skip: the per-point body applies to every particle, adding
the increment `Δ · strength / (dist² · 0.1)` along the offset `Δ` toward
the well, where `dist` is the true distance clamped below at 20.  Away
from the clamp region (`dist ≥ 20`) the applied force magnitude is
exactly `strength / (dist * 0.1)` (in squared form); in general it is
that magnitude scaled by `trueDist / clampedDist`.  The force points
toward the well for positive strength and away for negative strength
(positive resp. negative dot product with the offset, for particles not
exactly at the center).  The max-range skip of the spec exists only in
the grid-based kernel `physics.rs::apply_gravity_well`, whose body
skips candidates beyond `GRAVITY_WELL_MAX_RANGE` and otherwise agrees
with the frame-step body. -/
theorem c3_gravity_well_amended (sqrtQ : ℚ → ℚ) (well : GravityWell) (p : Point)
    (h0 : 0 < gravDistSq well p)
    (hsq : GRAVITY_WELL_MIN_DIST * GRAVITY_WELL_MIN_DIST ≤ gravDistSq well p →
      sqrtQ (gravDistSq well p) * sqrtQ (gravDistSq well p) = gravDistSq well p ∧
      0 < sqrtQ (gravDistSq well p)) :
    (gravAddX sqrtQ well p
        = (well.x - p.x) * well.strength
          / (gravDistUsed sqrtQ well p * gravDistUsed sqrtQ well p * 0.1) ∧
     gravAddY sqrtQ well p
        = (well.y - p.y) * well.strength
          / (gravDistUsed sqrtQ well p * gravDistUsed sqrtQ well p * 0.1)) ∧
    (gravAddX sqrtQ well p * gravAddX sqrtQ well p
        + gravAddY sqrtQ well p * gravAddY sqrtQ well p
      = (well.strength / (gravDistUsed sqrtQ well p * 0.1))
        * (well.strength / (gravDistUsed sqrtQ well p * 0.1))
        * (gravDistSq well p
            / (gravDistUsed sqrtQ well p * gravDistUsed sqrtQ well p))) ∧
    (GRAVITY_WELL_MIN_DIST * GRAVITY_WELL_MIN_DIST ≤ gravDistSq well p →
      gravAddX sqrtQ well p * gravAddX sqrtQ well p
        + gravAddY sqrtQ well p * gravAddY sqrtQ well p
        = (well.strength / (gravDistUsed sqrtQ well p * 0.1))
          * (well.strength / (gravDistUsed sqrtQ well p * 0.1))) ∧
    (0 < well.strength →
      0 < gravAddX sqrtQ well p * (well.x - p.x)
          + gravAddY sqrtQ well p * (well.y - p.y)) ∧
    (well.strength < 0 →
      gravAddX sqrtQ well p * (well.x - p.x)
          + gravAddY sqrtQ well p * (well.y - p.y) < 0) ∧
    (GRAVITY_WELL_MAX_RANGE * GRAVITY_WELL_MAX_RANGE < gravDistSq well p →
      gravityForceBodyGrid sqrtQ well p = p) ∧
    (¬ GRAVITY_WELL_MAX_RANGE * GRAVITY_WELL_MAX_RANGE < gravDistSq well p →
      gravityForceBodyGrid sqrtQ well p = gravityForceBodySim sqrtQ well p) := by
  obtain ⟨hax, hay⟩ := gravityForceBodySim_add sqrtQ well p
  have hdpos : 0 < gravDistUsed sqrtQ well p := by
    unfold gravDistUsed
    split_ifs with h
    · norm_num [GRAVITY_WELL_MIN_DIST]
    · exact (hsq (not_lt.mp h)).2
  have hdne : gravDistUsed sqrtQ well p ≠ 0 := ne_of_gt hdpos
  have hincr :
      gravAddX sqrtQ well p
        = (well.x - p.x) * well.strength
          / (gravDistUsed sqrtQ well p * gravDistUsed sqrtQ well p * 0.1) ∧
      gravAddY sqrtQ well p
        = (well.y - p.y) * well.strength
          / (gravDistUsed sqrtQ well p * gravDistUsed sqrtQ well p * 0.1) := by
    constructor
    · rw [hax]; field_simp; left; ring
    · rw [hay]; field_simp; left; ring
  have hmag :
      gravAddX sqrtQ well p * gravAddX sqrtQ well p
        + gravAddY sqrtQ well p * gravAddY sqrtQ well p
      = (well.strength / (gravDistUsed sqrtQ well p * 0.1))
        * (well.strength / (gravDistUsed sqrtQ well p * 0.1))
        * (gravDistSq well p
            / (gravDistUsed sqrtQ well p * gravDistUsed sqrtQ well p)) := by
    rw [hax, hay]
    simp only [gravDistSq]
    field_simp
    ring
  have hdot :
      gravAddX sqrtQ well p * (well.x - p.x)
        + gravAddY sqrtQ well p * (well.y - p.y)
      = gravDistSq well p * well.strength
        / (gravDistUsed sqrtQ well p * gravDistUsed sqrtQ well p * 0.1) := by
    rw [hax, hay]
    simp only [gravDistSq]
    field_simp
    ring
  have hden : 0 < gravDistUsed sqrtQ well p * gravDistUsed sqrtQ well p * 0.1 := by
    nlinarith [hdpos]
  refine ⟨hincr, hmag, ?_, ?_, ?_, ?_, ?_⟩
  · intro hge
    obtain ⟨hdd, _⟩ := hsq hge
    have hd : gravDistUsed sqrtQ well p = sqrtQ (gravDistSq well p) := by
      unfold gravDistUsed
      rw [if_neg (not_lt.mpr hge)]
    have hq : gravDistSq well p
        / (gravDistUsed sqrtQ well p * gravDistUsed sqrtQ well p) = 1 := by
      rw [hd, hdd]
      exact div_self (ne_of_gt h0)
    rw [hmag, hq, mul_one]
  · intro hs
    rw [hdot]
    exact div_pos (mul_pos h0 hs) hden
  · intro hs
    rw [hdot]
    exact div_neg_of_neg_of_pos (mul_neg_of_pos_of_neg h0 hs) hden
  · intro h
    simp only [gravDistSq] at h
    simp [gravityForceBodyGrid, h]
  · intro h
    simp only [gravDistSq] at h
    simp [gravityForceBodyGrid, h]

/-- A square root valid at the only squared distance the C3 witness
uses. -/
def c3wSqrt : ℚ → ℚ := fun q => if q = 2500 then 50 else 0

def c3wWell : GravityWell := ⟨0, 0, 3⟩

def c3wPoint : Point := ⟨30, 40, 0, 30, 40, 0, 0, 0, 0⟩

/-- Witness for the amended C3 at a particle 50 units from an attracting
well. -/
theorem c3_gravity_well_amended_witness :
    (0 < gravDistSq c3wWell c3wPoint) ∧
    0 < gravAddX c3wSqrt c3wWell c3wPoint * (c3wWell.x - c3wPoint.x)
        + gravAddY c3wSqrt c3wWell c3wPoint * (c3wWell.y - c3wPoint.y) := by
  have h0 : (0 : ℚ) < gravDistSq c3wWell c3wPoint := by
    norm_num [gravDistSq, c3wWell, c3wPoint]
  have h := c3_gravity_well_amended c3wSqrt c3wWell c3wPoint h0
    (fun _ => by norm_num [c3wSqrt, gravDistSq, c3wWell, c3wPoint])
  exact ⟨h0, h.2.2.2.1 (by norm_num [c3wWell])⟩

/-- A square root valid at the only squared distance the C3
counterexample uses (`2000² = 4000000`, an exact f32 value). -/
def c3SqrtQ : ℚ → ℚ := fun q => if q = 4000000 then 2000 else 0

/-- A simulation state with one particle at `(1200, 1600)` — distance
2000 from the active attracting well at the origin — and no other
active effects. -/
def c3FarSim : Simulation :=
  { points := [⟨1200, 1600, 0, 1200, 1600, 0, 0, 0, 0⟩]
    width := 5000, height := 5000
    rng := ⟨1⟩
    triangle_vertices := [], stroke_vertices := [], point_vertices := []
    noise_scale := 0.003, height_intensity := 0.6
    mouse_x := 0, mouse_y := 0, prev_mouse_x := 0, prev_mouse_y := 0
    mouse_vx := 0, mouse_vy := 0, mouse_in_canvas := false
    mouse_radius := 150, mouse_strength := 80, mouse_mode := .Push
    spring_back := 0.06, damping := 0.92, velocity_influence := 0.3
    shockwaves := []
    gravity_well := some ⟨0, 0, 3⟩ }

/-- **C3 counterexample.**  In the frame step the gravity kernel
(`Simulation::apply_gravity_well`) has no maximum-range check: the
particle at distance 2000 > 1000 from the active well *does* receive a
gravity force (its `dx` changes from 0 to −9/1000), refuting the claim
that particles beyond `GRAVITY_WELL_MAX_RANGE` receive no force during
a frame step. -/
theorem c3_counterexample :
    GRAVITY_WELL_MAX_RANGE * GRAVITY_WELL_MAX_RANGE
        < gravDistSq ⟨0, 0, 3⟩ (c3FarSim.points.getD 0 default) ∧
    c3FarSim.gravity_well = some ⟨0, 0, 3⟩ ∧
    (c3FarSim.points.getD 0 default).dx = 0 ∧
    ((c3FarSim.apply_gravity_well c3SqrtQ).points.getD 0 default).dx = -(9 / 1000) ∧
    (c3FarSim.apply_gravity_well c3SqrtQ).points ≠ c3FarSim.points := by
  have hdx : ((c3FarSim.apply_gravity_well c3SqrtQ).points.getD 0 default).dx
      = -(9 / 1000) := by
    norm_num [Simulation.apply_gravity_well, c3FarSim, gravityForceBodySim,
      c3SqrtQ, GRAVITY_WELL_MIN_DIST]
  refine ⟨?_, rfl, rfl, hdx, ?_⟩
  · norm_num [gravDistSq, c3FarSim, GRAVITY_WELL_MAX_RANGE]
  · intro heq
    have h := congrArg (fun l => (l.getD 0 default).dx) heq
    simp only [hdx] at h
    have h0 : (c3FarSim.points.getD 0 default).dx = 0 := rfl
    rw [h0] at h
    norm_num at h

/-! ### C8 — force kernels mutate only the displacement velocity -/

/-- All particle fields except the displacement velocity `dx, dy`. -/
def posFields (p : Point) : ℚ × ℚ × ℚ × ℚ × ℚ × ℚ × ℚ :=
  (p.x, p.y, p.z, p.base_x, p.base_y, p.vx, p.vy)

theorem posFields_mouseForceBody (sqrtQ : ℚ → ℚ) (mode : MouseMode)
    (mx my radius radius_sq strength velocity_boost : ℚ) (p : Point) :
    posFields (mouseForceBody sqrtQ mode mx my radius radius_sq strength
      velocity_boost p) = posFields p := by
  unfold mouseForceBody
  cases mode <;> dsimp only <;> split_ifs <;> rfl

theorem posFields_gravityForceBodySim (sqrtQ : ℚ → ℚ) (well : GravityWell)
    (p : Point) : posFields (gravityForceBodySim sqrtQ well p) = posFields p :=
  rfl

theorem posFields_gravityForceBodyGrid (sqrtQ : ℚ → ℚ) (well : GravityWell)
    (p : Point) : posFields (gravityForceBodyGrid sqrtQ well p) = posFields p := by
  unfold gravityForceBodyGrid
  dsimp only
  split_ifs <;> rfl

theorem posFields_shockwaveForceBody (sqrtQ : ℚ → ℚ) (wave : Shockwave)
    (p : Point) : posFields (shockwaveForceBody sqrtQ wave p) = posFields p := by
  unfold shockwaveForceBody
  dsimp only
  split_ifs <;> rfl

/-- Mapping a field-preserving body over the particle list preserves all
non-displacement fields. -/
theorem map_map_posFields {f : Point → Point}
    (hf : ∀ p, posFields (f p) = posFields p) (l : List Point) :
    (l.map f).map posFields = l.map posFields := by
  induction l with
  | nil => rfl
  | cons a t ih => simp [hf, ih]

/-- `l.set i (l.getD i d) = l` (writing back the element just read). -/
theorem set_getD_self {α : Type} :
    ∀ (l : List α) (i : ℕ) (d : α), l.set i (l.getD i d) = l
  | [], _, _ => by simp
  | a :: t, 0, d => by simp [List.getD]
  | a :: t, i + 1, d => by
      simp only [List.getD_cons_succ, List.set_cons_succ, List.cons.injEq,
        true_and]
      exact set_getD_self t i d

/-- The index-fold of the grid-based kernels preserves all
non-displacement fields. -/
theorem applyAt_map_posFields {body : Point → Point}
    (hb : ∀ p, posFields (body p) = posFields p) :
    ∀ (nearby : List ℕ) (points : List Point),
      (physics.applyAt body points nearby).map posFields
        = points.map posFields := by
  intro nearby
  induction nearby with
  | nil => intro points; rfl
  | cons i rest ih =>
      intro points
      show (physics.applyAt body
        (points.set i (body (points.getD i default))) rest).map posFields = _
      rw [ih, List.map_set, hb, ← List.getD_map points default posFields,
        set_getD_self]

/-- The per-wave fold of `Simulation::apply_shockwave_forces` preserves
all non-displacement fields. -/
theorem foldl_waves_map_posFields (sqrtQ : ℚ → ℚ) (waves : List Shockwave) :
    ∀ pts : List Point,
      ((waves.foldl (fun pts wave => pts.map (shockwaveForceBody sqrtQ wave))
        pts).map posFields) = pts.map posFields := by
  induction waves with
  | nil => intro pts; rfl
  | cons w rest ih =>
      intro pts
      show ((rest.foldl _ (pts.map (shockwaveForceBody sqrtQ w))).map posFields) = _
      rw [ih, map_map_posFields (posFields_shockwaveForceBody sqrtQ w)]

/-- **C8.** Each of the three force kernels — pointer influence, gravity
well, shockwave — in both the frame-step (simulation.rs) and the
grid-based (physics.rs) form, changes only the displacement-velocity
fields `dx`/`dy`: the projection to `(x, y, z, base_x, base_y, vx, vy)`
of every particle is unchanged. -/
theorem c8_kernels_only_displacement (sqrtQ : ℚ → ℚ) (s : Simulation)
    (points : List Point) (mouse : MouseState) (well : GravityWell)
    (wave : Shockwave) (grid : SpatialGrid) (velocity_influence : ℚ) :
    ((s.apply_mouse_influence sqrtQ).points.map posFields
        = s.points.map posFields) ∧
    ((s.apply_gravity_well sqrtQ).points.map posFields
        = s.points.map posFields) ∧
    ((s.apply_shockwave_forces sqrtQ).points.map posFields
        = s.points.map posFields) ∧
    ((physics.apply_mouse_influence sqrtQ points mouse velocity_influence
        grid).map posFields = points.map posFields) ∧
    ((physics.apply_gravity_well sqrtQ points well grid).map posFields
        = points.map posFields) ∧
    ((physics.apply_shockwave sqrtQ points wave grid).map posFields
        = points.map posFields) := by
  refine ⟨?_, ?_, ?_, ?_, ?_, ?_⟩
  · unfold Simulation.apply_mouse_influence
    split_ifs
    · rfl
    · exact map_map_posFields (posFields_mouseForceBody sqrtQ s.mouse_mode
        s.mouse_x s.mouse_y s.mouse_radius _ s.mouse_strength _) s.points
  · unfold Simulation.apply_gravity_well
    cases s.gravity_well with
    | none => rfl
    | some w => exact map_map_posFields (posFields_gravityForceBodySim sqrtQ w) s.points
  · exact foldl_waves_map_posFields sqrtQ s.shockwaves s.points
  · unfold physics.apply_mouse_influence
    split_ifs
    · rfl
    · exact applyAt_map_posFields (posFields_mouseForceBody sqrtQ mouse.mode
        mouse.x mouse.y mouse.radius _ mouse.strength _) _ points
  · exact applyAt_map_posFields (posFields_gravityForceBodyGrid sqrtQ well) _ points
  · exact applyAt_map_posFields (posFields_shockwaveForceBody sqrtQ wave) _ points

/-! ### C2 — spatial grid query superset -/

/-- `(l.set i v).getD i d = v` for an in-range index. -/
theorem getD_set_self {α : Type} :
    ∀ (l : List α) (i : ℕ) (v d : α), i < l.length → (l.set i v).getD i d = v
  | [], i, v, d, h => absurd h (by simp)
  | _ :: _, 0, _, _, _ => rfl
  | a :: t, i + 1, v, d, h => by
      simp only [List.set_cons_succ, List.getD_cons_succ]
      exact getD_set_self t i v d (by simpa using h)

/-- `set` at one index leaves `getD` at another unchanged. -/
theorem getD_set_ne {α : Type} :
    ∀ (l : List α) (i j : ℕ) (v d : α), i ≠ j → (l.set i v).getD j d = l.getD j d
  | [], _, _, _, _, _ => rfl
  | _ :: _, 0, 0, _, _, h => absurd rfl h
  | _ :: _, 0, _ + 1, _, _, _ => rfl
  | _ :: _, _ + 1, 0, _, _, _ => rfl
  | a :: t, i + 1, j + 1, v, d, h => by
      simp only [List.set_cons_succ, List.getD_cons_succ]
      exact getD_set_ne t i j v d (fun hc => h (by rw [hc]))

namespace SpatialGrid

/-- Well-formedness maintained by construction: the cell store has
`cols * rows` entries and both dimensions are at least 1. -/
def wf (g : SpatialGrid) : Prop :=
  g.cells.length = g.cols * g.rows ∧ 1 ≤ g.cols ∧ 1 ≤ g.rows

theorem new_wf (width height cell_size : ℚ) : (new width height cell_size).wf := by
  refine ⟨by simp [new], ?_, ?_⟩ <;> simp [new]

/-- `insert` changes only the cell contents. -/
theorem insert_params (g : SpatialGrid) (i : ℕ) (x y : ℚ) :
    (g.insert i x y).cols = g.cols ∧ (g.insert i x y).rows = g.rows ∧
    (g.insert i x y).cell_size = g.cell_size ∧
    (g.insert i x y).cells.length = g.cells.length :=
  ⟨rfl, rfl, rfl, by simp [insert]⟩

theorem insert_wf (g : SpatialGrid) (i : ℕ) (x y : ℚ) (h : g.wf) :
    (g.insert i x y).wf := by
  obtain ⟨h1, h2, h3⟩ := h
  exact ⟨by simpa [insert] using h1, h2, h3⟩

theorem insertAll_params :
    ∀ (ps : List (ℚ × ℚ)) (g : SpatialGrid) (start : ℕ),
      (g.insertAll start ps).cols = g.cols ∧
      (g.insertAll start ps).rows = g.rows ∧
      (g.insertAll start ps).cell_size = g.cell_size
  | [], _, _ => ⟨rfl, rfl, rfl⟩
  | p :: rest, g, start => insertAll_params rest (g.insert start p.1 p.2) (start + 1)

theorem insertAll_wf :
    ∀ (ps : List (ℚ × ℚ)) (g : SpatialGrid) (start : ℕ), g.wf →
      (g.insertAll start ps).wf
  | [], _, _, h => h
  | p :: rest, g, start, h =>
      insertAll_wf rest (g.insert start p.1 p.2) (start + 1)
        (insert_wf g start p.1 p.2 h)

/-- A well-formed grid's cell index is always in range. -/
theorem cell_index_lt (g : SpatialGrid) (h : g.wf) (x y : ℚ) :
    g.cell_index x y < g.cells.length := by
  obtain ⟨hlen, hcols, hrows⟩ := h
  unfold cell_index
  dsimp only
  rw [hlen]
  have h1 : min (⌊y / g.cell_size⌋.toNat) (g.rows - 1) ≤ g.rows - 1 :=
    min_le_right _ _
  have h2 : min (⌊x / g.cell_size⌋.toNat) (g.cols - 1) ≤ g.cols - 1 :=
    min_le_right _ _
  have hstep : min (⌊y / g.cell_size⌋.toNat) (g.rows - 1) * g.cols
      + min (⌊x / g.cell_size⌋.toNat) (g.cols - 1)
      ≤ (g.rows - 1) * g.cols + (g.cols - 1) :=
    add_le_add (Nat.mul_le_mul_right _ h1) h2
  have hfin : (g.rows - 1) * g.cols + (g.cols - 1) < g.cols * g.rows := by
    obtain ⟨c, hc⟩ : ∃ c, g.cols = c + 1 := ⟨g.cols - 1, by omega⟩
    obtain ⟨r, hr⟩ : ∃ r, g.rows = r + 1 := ⟨g.rows - 1, by omega⟩
    rw [hc, hr]
    simp only [Nat.add_sub_cancel]
    nlinarith
  omega

/-- Membership of `j` in the cell of position `(x, y)`. -/
def cellHas (g : SpatialGrid) (j : ℕ) (x y : ℚ) : Prop :=
  j ∈ g.cells.getD (g.cell_index x y) []

theorem insert_cellHas_self (g : SpatialGrid) (j : ℕ) (x y : ℚ)
    (h : g.cell_index x y < g.cells.length) : (g.insert j x y).cellHas j x y := by
  unfold cellHas
  have hidx : (g.insert j x y).cell_index x y = g.cell_index x y := rfl
  rw [hidx]
  show j ∈ (g.cells.set (g.cell_index x y)
    (g.cells.getD (g.cell_index x y) [] ++ [j])).getD (g.cell_index x y) []
  rw [getD_set_self _ _ _ _ h]
  simp

theorem insert_cellHas_mono (g : SpatialGrid) (j : ℕ) (x y : ℚ)
    (hj : g.cellHas j x y) (i : ℕ) (x' y' : ℚ) :
    (g.insert i x' y').cellHas j x y := by
  unfold cellHas at *
  have hidx : (g.insert i x' y').cell_index x y = g.cell_index x y := rfl
  rw [hidx]
  show j ∈ (g.cells.set (g.cell_index x' y')
    (g.cells.getD (g.cell_index x' y') [] ++ [i])).getD (g.cell_index x y) []
  by_cases hc : g.cell_index x' y' = g.cell_index x y
  · by_cases hlen : g.cell_index x' y' < g.cells.length
    · rw [hc] at hlen ⊢
      rw [getD_set_self _ _ _ _ hlen]
      exact List.mem_append_left _ hj
    · rw [List.set_eq_of_length_le (le_of_not_lt hlen)]
      exact hj
  · rw [getD_set_ne _ _ _ _ _ hc]
    exact hj

theorem insertAll_cellHas_mono :
    ∀ (ps : List (ℚ × ℚ)) (g : SpatialGrid) (start j : ℕ) (x y : ℚ),
      g.cellHas j x y → (g.insertAll start ps).cellHas j x y
  | [], _, _, _, _, _, hj => hj
  | p :: rest, g, start, j, x, y, hj =>
      insertAll_cellHas_mono rest (g.insert start p.1 p.2) (start + 1) j x y
        (insert_cellHas_mono g j x y hj start p.1 p.2)

/-- After inserting the positions of `ps` with indices `start, start+1, …`,
index `start + i` is stored in the cell of the `i`-th position. -/
theorem insertAll_cellHas :
    ∀ (ps : List (ℚ × ℚ)) (g : SpatialGrid) (start i : ℕ) (x y : ℚ),
      g.wf → ps[i]? = some (x, y) →
      (g.insertAll start ps).cellHas (start + i) x y := by
  intro ps
  induction ps with
  | nil => intro g start i x y _ hp; simp at hp
  | cons p rest ih =>
      intro g start i x y hwf hp
      cases i with
      | zero =>
          simp only [List.getElem?_cons_zero, Option.some.injEq] at hp
          subst hp
          show ((g.insert start x y).insertAll (start + 1) rest).cellHas (start + 0) x y
          rw [Nat.add_zero]
          exact insertAll_cellHas_mono rest (g.insert start x y) (start + 1) start x y
            (insert_cellHas_self g start x y (cell_index_lt g hwf x y))
      | succ n =>
          have h := ih (g.insert start p.1 p.2) (start + 1) n x y
            (insert_wf g start p.1 p.2 hwf) (by simpa using hp)
          show ((g.insert start p.1 p.2).insertAll (start + 1) rest).cellHas
            (start + (n + 1)) x y
          have harith : start + (n + 1) = (start + 1) + n := by omega
          rw [harith]
          exact h

/-- The `min_col` bound of `query_radius`. -/
def qMinCol (g : SpatialGrid) (cx r : ℚ) : ℕ :=
  (⌊(cx - r) / g.cell_size⌋).toNat

/-- The `max_col` bound of `query_radius`. -/
def qMaxCol (g : SpatialGrid) (cx r : ℚ) : ℕ :=
  (min ⌈(cx + r) / g.cell_size⌉ (g.cols : ℤ)).toNat

/-- The `min_row` bound of `query_radius`. -/
def qMinRow (g : SpatialGrid) (cy r : ℚ) : ℕ :=
  (⌊(cy - r) / g.cell_size⌋).toNat

/-- The `max_row` bound of `query_radius`. -/
def qMaxRow (g : SpatialGrid) (cy r : ℚ) : ℕ :=
  (min ⌈(cy + r) / g.cell_size⌉ (g.rows : ℤ)).toNat

theorem query_radius_eq (g : SpatialGrid) (cx cy r : ℚ) :
    g.query_radius cx cy r
      = (List.range' (g.qMinRow cy r) (g.qMaxRow cy r - g.qMinRow cy r)).flatMap
          fun row =>
            (List.range' (g.qMinCol cx r) (g.qMaxCol cx r - g.qMinCol cx r)).flatMap
              fun col => g.cells.getD (row * g.cols + col) [] := rfl

/-- Any index stored in a cell whose (row, col) falls inside the query
window appears in the query output. -/
theorem mem_query_radius (g : SpatialGrid) (cx cy r : ℚ) (j row col : ℕ)
    (h1 : g.qMinCol cx r ≤ col) (h2 : col < g.qMaxCol cx r)
    (h3 : g.qMinRow cy r ≤ row) (h4 : row < g.qMaxRow cy r)
    (hj : j ∈ g.cells.getD (row * g.cols + col) []) :
    j ∈ g.query_radius cx cy r := by
  rw [query_radius_eq]
  refine List.mem_flatMap.mpr ⟨row, List.mem_range'_1.mpr ⟨h3, by omega⟩, ?_⟩
  exact List.mem_flatMap.mpr ⟨col, List.mem_range'_1.mpr ⟨h1, by omega⟩, hj⟩

end SpatialGrid

/-- Core interval arithmetic for one grid axis: a coordinate
`x ∈ [0, n·cs]` whose distance to the query center `c` is strictly below
`r` lands in a (clamped) cell column inside the query's
`[min_col, max_col)` window. -/
theorem axis_range (cs : ℚ) (hcs : 0 < cs) (n : ℕ) (hn : 1 ≤ n)
    (x c r : ℚ) (hx0 : 0 ≤ x) (hxn : x ≤ (n : ℚ) * cs)
    (hlo : c - r < x) (hhi : x < c + r) :
    (⌊(c - r) / cs⌋).toNat ≤ min (⌊x / cs⌋.toNat) (n - 1) ∧
    min (⌊x / cs⌋.toNat) (n - 1) < (min ⌈(c + r) / cs⌉ (n : ℤ)).toNat := by
  have hfx0 : (0 : ℤ) ≤ ⌊x / cs⌋ := Int.floor_nonneg.mpr (div_nonneg hx0 hcs.le)
  have hdivle : x / cs ≤ (n : ℚ) := by
    rw [div_le_iff₀ hcs]; exact hxn
  have hdivlo : (c - r) / cs < x / cs := (div_lt_div_iff_of_pos_right hcs).mpr hlo
  have hdivhi : x / cs < (c + r) / cs := (div_lt_div_iff_of_pos_right hcs).mpr hhi
  have hm1 : ⌊(c - r) / cs⌋ ≤ ⌊x / cs⌋ := Int.floor_le_floor hdivlo.le
  have hm2 : ⌊(c - r) / cs⌋ < (n : ℤ) :=
    Int.floor_lt.mpr (lt_of_lt_of_le hdivlo hdivle)
  constructor
  · refine le_min (Int.toNat_le_toNat hm1) ?_
    have h2 : (⌊(c - r) / cs⌋).toNat ≤ ((n : ℤ) - 1).toNat :=
      Int.toNat_le_toNat (by omega)
    omega
  · rcases le_or_lt (⌊x / cs⌋.toNat) (n - 1) with hle | hgt
    · rw [min_eq_left hle]
      have hCpos : (0 : ℤ) < ⌈(c + r) / cs⌉ :=
        Int.ceil_pos.mpr (lt_of_le_of_lt (div_nonneg hx0 hcs.le) hdivhi)
      have hfC : ⌊x / cs⌋ < ⌈(c + r) / cs⌉ := by
        have h1 : (⌊x / cs⌋ : ℚ) ≤ x / cs := Int.floor_le _
        have h2 : (c + r) / cs ≤ (⌈(c + r) / cs⌉ : ℚ) := Int.le_ceil _
        exact_mod_cast lt_of_le_of_lt h1 (lt_of_lt_of_le hdivhi h2)
      have hfn : ⌊x / cs⌋ < (n : ℤ) := by omega
      have hlt : ⌊x / cs⌋ < min ⌈(c + r) / cs⌉ (n : ℤ) := lt_min hfC hfn
      have hminpos : (0 : ℤ) < min ⌈(c + r) / cs⌉ (n : ℤ) :=
        lt_min hCpos (by exact_mod_cast hn)
      have := (Int.toNat_lt_toNat hminpos).mpr hlt
      omega
    · rw [min_eq_right (le_of_lt hgt)]
      have hfxn : (n : ℤ) ≤ ⌊x / cs⌋ := by omega
      have hxcs : (n : ℚ) ≤ x / cs := by
        calc (n : ℚ) ≤ (⌊x / cs⌋ : ℚ) := by exact_mod_cast hfxn
          _ ≤ x / cs := Int.floor_le _
      have hC : (n : ℤ) < ⌈(c + r) / cs⌉ := by
        have hval : (n : ℚ) < (c + r) / cs := lt_of_le_of_lt hxcs hdivhi
        exact_mod_cast lt_of_lt_of_le hval (Int.le_ceil _)
      have hmin : min ⌈(c + r) / cs⌉ (n : ℤ) = (n : ℤ) := min_eq_right (le_of_lt hC)
      rw [hmin]
      omega

/-- The validated grid covers the requested span:
`width ≤ cols * cell_size` and `height ≤ rows * cell_size`. -/
theorem new_span_le (width height cell_size : ℚ) :
    width ≤ ((SpatialGrid.new width height cell_size).cols : ℚ)
      * (SpatialGrid.new width height cell_size).cell_size ∧
    height ≤ ((SpatialGrid.new width height cell_size).rows : ℚ)
      * (SpatialGrid.new width height cell_size).cell_size := by
  have hcs : (0 : ℚ) < max cell_size 1 := lt_of_lt_of_le one_pos (le_max_right _ _)
  constructor
  · show width ≤ ((max (⌈width / max cell_size 1⌉.toNat) 1 : ℕ) : ℚ) * max cell_size 1
    have h1 : width / max cell_size 1 ≤ (⌈width / max cell_size 1⌉ : ℚ) := Int.le_ceil _
    have h2 : (⌈width / max cell_size 1⌉ : ℚ)
        ≤ ((⌈width / max cell_size 1⌉.toNat : ℕ) : ℚ) := by
      exact_mod_cast Int.self_le_toNat _
    have h3 : ((⌈width / max cell_size 1⌉.toNat : ℕ) : ℚ)
        ≤ ((max (⌈width / max cell_size 1⌉.toNat) 1 : ℕ) : ℚ) := by
      exact_mod_cast le_max_left _ _
    calc width = width / max cell_size 1 * max cell_size 1 := by field_simp
      _ ≤ ((max (⌈width / max cell_size 1⌉.toNat) 1 : ℕ) : ℚ) * max cell_size 1 :=
          mul_le_mul_of_nonneg_right (le_trans h1 (le_trans h2 h3)) hcs.le
  · show height ≤ ((max (⌈height / max cell_size 1⌉.toNat) 1 : ℕ) : ℚ) * max cell_size 1
    have h1 : height / max cell_size 1 ≤ (⌈height / max cell_size 1⌉ : ℚ) := Int.le_ceil _
    have h2 : (⌈height / max cell_size 1⌉ : ℚ)
        ≤ ((⌈height / max cell_size 1⌉.toNat : ℕ) : ℚ) := by
      exact_mod_cast Int.self_le_toNat _
    have h3 : ((⌈height / max cell_size 1⌉.toNat : ℕ) : ℚ)
        ≤ ((max (⌈height / max cell_size 1⌉.toNat) 1 : ℕ) : ℚ) := by
      exact_mod_cast le_max_left _ _
    calc height = height / max cell_size 1 * max cell_size 1 := by field_simp
      _ ≤ ((max (⌈height / max cell_size 1⌉.toNat) 1 : ℕ) : ℚ) * max cell_size 1 :=
          mul_le_mul_of_nonneg_right (le_trans h1 (le_trans h2 h3)) hcs.le

/-- Build a grid over the given bounds and fill it with the positions of
`ps`, index `i` at the `i`-th position (how the simulation fills the grid
each frame). -/
def buildGrid (width height cell_size : ℚ) (ps : List (ℚ × ℚ)) : SpatialGrid :=
  (SpatialGrid.new width height cell_size).insertAll 0 ps

/-- **C2 (amended).** For every grid built over any bounds and cell size
and filled with every particle index at that particle's current
position, `query_radius (cx, cy, r)` contains every index whose particle
lies within the grid span (`0 ≤ x ≤ width`, `0 ≤ y ≤ height`) and whose
true Euclidean distance to `(cx, cy)` is *strictly* below `r` (stated in
squared form).  The original claim with `distance ≤ r` and unrestricted
positions fails (see the counterexample). -/
theorem c2_query_superset_amended (width height cell_size : ℚ)
    (ps : List (ℚ × ℚ)) (cx cy r : ℚ) (i : ℕ) (x y : ℚ)
    (hp : ps[i]? = some (x, y))
    (hx0 : 0 ≤ x) (hxw : x ≤ width) (hy0 : 0 ≤ y) (hyh : y ≤ height)
    (hr : 0 ≤ r)
    (hdist : (x - cx) * (x - cx) + (y - cy) * (y - cy) < r * r) :
    i ∈ (buildGrid width height cell_size ps).query_radius cx cy r := by
  have hwf0 := SpatialGrid.new_wf width height cell_size
  have hparams :
      (buildGrid width height cell_size ps).cols
          = (SpatialGrid.new width height cell_size).cols ∧
      (buildGrid width height cell_size ps).rows
          = (SpatialGrid.new width height cell_size).rows ∧
      (buildGrid width height cell_size ps).cell_size
          = (SpatialGrid.new width height cell_size).cell_size :=
    SpatialGrid.insertAll_params ps (SpatialGrid.new width height cell_size) 0
  obtain ⟨hcols, hrows, hcsz⟩ := hparams
  have hcell : (buildGrid width height cell_size ps).cellHas (0 + i) x y :=
    SpatialGrid.insertAll_cellHas ps _ 0 i x y hwf0 hp
  rw [Nat.zero_add] at hcell
  set g := buildGrid width height cell_size ps with hgdef
  have hcs : (0 : ℚ) < g.cell_size := by
    rw [hcsz]
    show (0 : ℚ) < max cell_size 1
    exact lt_of_lt_of_le one_pos (le_max_right _ _)
  have hcols1 : 1 ≤ g.cols := by rw [hcols]; exact hwf0.2.1
  have hrows1 : 1 ≤ g.rows := by rw [hrows]; exact hwf0.2.2
  have h1 : (x - cx) * (x - cx) < r * r := by nlinarith [mul_self_nonneg (y - cy)]
  have h2 : (y - cy) * (y - cy) < r * r := by nlinarith [mul_self_nonneg (x - cx)]
  have hxlo : cx - r < x := by nlinarith
  have hxhi : x < cx + r := by nlinarith
  have hylo : cy - r < y := by nlinarith
  have hyhi : y < cy + r := by nlinarith
  obtain ⟨hwspan, hhspan⟩ := new_span_le width height cell_size
  have hxn : x ≤ (g.cols : ℚ) * g.cell_size := by
    rw [hcols, hcsz]; exact le_trans hxw hwspan
  have hyn : y ≤ (g.rows : ℚ) * g.cell_size := by
    rw [hrows, hcsz]; exact le_trans hyh hhspan
  obtain ⟨hc1, hc2⟩ := axis_range g.cell_size hcs g.cols hcols1 x cx r hx0 hxn hxlo hxhi
  obtain ⟨hq1, hq2⟩ := axis_range g.cell_size hcs g.rows hrows1 y cy r hy0 hyn hylo hyhi
  exact SpatialGrid.mem_query_radius g cx cy r i
    (min (⌊y / g.cell_size⌋.toNat) (g.rows - 1))
    (min (⌊x / g.cell_size⌋.toNat) (g.cols - 1))
    hc1 hc2 hq1 hq2 hcell

/-- Witness for the amended C2: particle 0 at `(15, 25)` in a
`100 × 100` grid with cell size 10 is found by the query at `(18, 29)`
with radius 6 (distance 5 < 6). -/
theorem c2_query_superset_amended_witness :
    (((15 : ℚ) - 18) * (15 - 18) + ((25 : ℚ) - 29) * (25 - 29) < 6 * 6) ∧
    (0 : ℕ) ∈ (buildGrid 100 100 10 [(15, 25)]).query_radius 18 29 6 :=
  ⟨by norm_num,
    c2_query_superset_amended 100 100 10 [(15, 25)] 18 29 6 0 15 25 rfl
      (by norm_num) (by norm_num) (by norm_num) (by norm_num) (by norm_num)
      (by norm_num)⟩

/-- **C2 counterexample.**  Two concrete false negatives of
`query_radius` against the claim's `distance ≤ r`:
(1) a `20 × 10` grid with cell size 10 holding particle 0 at `(10, 5)`
misses it for the query at `(0, 5)` with radius 10 although its distance
is exactly 10 (`max_col = ceil(10/10) = 1` excludes the particle's
column 1 — all values exact in f32);
(2) the same grid holding particle 0 at the out-of-bounds position
`(200, 5)` (clamped into the last cell) misses it for the query at
`(200, 5)` with radius 1 although its distance is 0. -/
theorem c2_counterexample :
    (((10 : ℚ) - 0) * (10 - 0) + ((5 : ℚ) - 5) * (5 - 5) ≤ 10 * 10 ∧
      (0 : ℕ) ∉ (buildGrid 20 10 10 [(10, 5)]).query_radius 0 5 10) ∧
    (((200 : ℚ) - 200) * (200 - 200) + ((5 : ℚ) - 5) * (5 - 5) ≤ 1 * 1 ∧
      (0 : ℕ) ∉ (buildGrid 20 10 10 [(200, 5)]).query_radius 200 5 1) := by
  have hg1 : buildGrid 20 10 10 [(10, 5)]
      = { cells := [[], [0]], cell_size := 10, cols := 2, rows := 1,
          width := 20, height := 10 } := by
    norm_num [buildGrid, SpatialGrid.new, SpatialGrid.insertAll, SpatialGrid.insert,
      SpatialGrid.cell_index]
    decide
  have hg2 : buildGrid 20 10 10 [(200, 5)]
      = { cells := [[], [0]], cell_size := 10, cols := 2, rows := 1,
          width := 20, height := 10 } := by
    norm_num [buildGrid, SpatialGrid.new, SpatialGrid.insertAll, SpatialGrid.insert,
      SpatialGrid.cell_index]
    decide
  refine ⟨⟨by norm_num, ?_⟩, ⟨by norm_num, ?_⟩⟩
  · rw [hg1]
    norm_num [SpatialGrid.query_radius]
    intro a _ ha b _ hb
    subst ha; subst hb
    simp
  · rw [hg2]
    norm_num [SpatialGrid.query_radius]

end PolygonBackground
